import Mathlib

/-!
Verification of the agent-replay-debugger core (models.py, recorder.py,
replayer.py) via a shallow embedding.  Python dictionaries are modelled as
ordered association lists (insertion order preserved, assignment replaces in
place); Python exceptions are modelled by `Option` results (`none` = raised);
the wall clock is modelled by oracles passed to the recorder interpreter.
-/

namespace ARD

/-- A JSON-like value, the payload type of event `data` fields. -/
inductive Value where
  | vnull : Value
  | vbool : Bool → Value
  | vint : Int → Value
  | vstr : String → Value
  | vlist : List Value → Value
  | vdict : List (String × Value) → Value

mutual

/-- Decidable structural equality on values (Python `==` on JSON data). -/
def Value.decEq : (a b : Value) → Decidable (a = b)
  | .vnull, .vnull => isTrue rfl
  | .vbool a, .vbool b =>
    if h : a = b then isTrue (by rw [h]) else isFalse (by simp [h])
  | .vint a, .vint b =>
    if h : a = b then isTrue (by rw [h]) else isFalse (by simp [h])
  | .vstr a, .vstr b =>
    if h : a = b then isTrue (by rw [h]) else isFalse (by simp [h])
  | .vlist a, .vlist b =>
    match Value.decEqList a b with
    | isTrue h => isTrue (by rw [h])
    | isFalse h => isFalse (by simp [h])
  | .vdict a, .vdict b =>
    match Value.decEqDict a b with
    | isTrue h => isTrue (by rw [h])
    | isFalse h => isFalse (by simp [h])
  | .vnull, .vbool _ | .vnull, .vint _ | .vnull, .vstr _ | .vnull, .vlist _
  | .vnull, .vdict _ | .vbool _, .vnull | .vbool _, .vint _ | .vbool _, .vstr _
  | .vbool _, .vlist _ | .vbool _, .vdict _ | .vint _, .vnull | .vint _, .vbool _
  | .vint _, .vstr _ | .vint _, .vlist _ | .vint _, .vdict _ | .vstr _, .vnull
  | .vstr _, .vbool _ | .vstr _, .vint _ | .vstr _, .vlist _ | .vstr _, .vdict _
  | .vlist _, .vnull | .vlist _, .vbool _ | .vlist _, .vint _ | .vlist _, .vstr _
  | .vlist _, .vdict _ | .vdict _, .vnull | .vdict _, .vbool _ | .vdict _, .vint _
  | .vdict _, .vstr _ | .vdict _, .vlist _ => isFalse (by simp)

def Value.decEqList : (a b : List Value) → Decidable (a = b)
  | [], [] => isTrue rfl
  | x :: xs, y :: ys =>
    match Value.decEq x y, Value.decEqList xs ys with
    | isTrue h1, isTrue h2 => isTrue (by rw [h1, h2])
    | isFalse h1, _ => isFalse (by simp [h1])
    | _, isFalse h2 => isFalse (by simp [h2])
  | [], _ :: _ => isFalse (by simp)
  | _ :: _, [] => isFalse (by simp)

def Value.decEqDict : (a b : List (String × Value)) → Decidable (a = b)
  | [], [] => isTrue rfl
  | (k1, v1) :: xs, (k2, v2) :: ys =>
    match String.decEq k1 k2, Value.decEq v1 v2, Value.decEqDict xs ys with
    | isTrue hk, isTrue hv, isTrue ht => isTrue (by rw [hk, hv, ht])
    | isFalse hk, _, _ => isFalse (by simp [hk])
    | _, isFalse hv, _ => isFalse (by simp [hv])
    | _, _, isFalse ht => isFalse (by simp [ht])
  | [], _ :: _ => isFalse (by simp)
  | _ :: _, [] => isFalse (by simp)

end

instance : DecidableEq Value := Value.decEq

/-- A Python `dict` with string keys, in insertion order. -/
abbrev Dict := List (String × Value)

/-- The recorder's live state mapping and its snapshots
(`Dict[str, Any]` in the source; keys are modelled as `Value` because the
replayer's reconstruction writes `event.data["key"]`, an arbitrary value,
as a key). -/
abbrev StateMap := List (Value × Value)

/-- Python dict lookup on an association list (keys are unique by
construction, so first match suffices). -/
def alookup {κ α : Type} [DecidableEq κ] : List (κ × α) → κ → Option α
  | [], _ => none
  | (k', v) :: rest, k => if k' = k then some v else alookup rest k

/-- Python dict assignment `d[k] = v`: replace in place if the key is
present, else append. -/
def aset {κ α : Type} [DecidableEq κ] : List (κ × α) → κ → α → List (κ × α)
  | [], k, v => [(k, v)]
  | (k', v') :: rest, k, v =>
    if k' = k then (k, v) :: rest else (k', v') :: aset rest k v

/-- models.py EventType: the closed tag set. -/
inductive EventType where
  | input | output | llm_call | tool_call | state_change | error | log | custom
deriving DecidableEq

/-- The `.value` string of each EventType member. -/
def EventType.value : EventType → String
  | .input => "input"
  | .output => "output"
  | .llm_call => "llm_call"
  | .tool_call => "tool_call"
  | .state_change => "state_change"
  | .error => "error"
  | .log => "log"
  | .custom => "custom"

/-- `EventType(s)` in Python: look a member up by its value; raises
(here: `none`) when the tag is not one of the eight members. -/
def eventTypeOfString (s : String) : Option EventType :=
  if s = "input" then some .input
  else if s = "output" then some .output
  else if s = "llm_call" then some .llm_call
  else if s = "tool_call" then some .tool_call
  else if s = "state_change" then some .state_change
  else if s = "error" then some .error
  else if s = "log" then some .log
  else if s = "custom" then some .custom
  else none

/-- models.py Event.  `duration_ms` (a Python float) is modelled as a
rational; ids are naturals (the recorder only ever produces positive ids). -/
structure Event where
  id : Nat
  timestamp : String
  type : EventType
  data : Dict
  duration_ms : Option Rat := none
  parent_id : Option Nat := none
  tags : List String := []
deriving DecidableEq

/-- models.py Session. `state_snapshots` maps event ids to state copies. -/
structure Session where
  session_id : String
  started_at : String
  ended_at : Option String := none
  events : List Event := []
  metadata : Dict := []
  state_snapshots : List (Nat × StateMap) := []
deriving DecidableEq

/-- The serialized form of one Event (`Event.to_dict` output shape):
all keys present, `type` in its string form. -/
structure EventDoc where
  id : Nat
  timestamp : String
  type : String
  data : Dict
  duration_ms : Option Rat
  parent_id : Option Nat
  tags : List String
deriving DecidableEq

/-- The serialized form of a Session (`Session.to_dict` output shape):
snapshot keys in their textual form. -/
structure SessionDoc where
  session_id : String
  started_at : String
  ended_at : Option String
  events : List EventDoc
  metadata : Dict
  state_snapshots : List (String × StateMap)
deriving DecidableEq

/-- models.py Event.to_dict. -/
def Event.to_dict (e : Event) : EventDoc :=
  { id := e.id
    timestamp := e.timestamp
    type := e.type.value
    data := e.data
    duration_ms := e.duration_ms
    parent_id := e.parent_id
    tags := e.tags }

/-- models.py Event.from_dict; `EventType(data["type"])` raises on an
unrecognized tag, modelled by `none`. -/
def Event.from_dict (d : EventDoc) : Option Event :=
  (eventTypeOfString d.type).map fun t =>
    { id := d.id
      timestamp := d.timestamp
      type := t
      data := d.data
      duration_ms := d.duration_ms
      parent_id := d.parent_id
      tags := d.tags }

/-- models.py Session.to_dict: events serialized in order, snapshot keys
stringified with `str(k)`. -/
def Session.to_dict (s : Session) : SessionDoc :=
  { session_id := s.session_id
    started_at := s.started_at
    ended_at := s.ended_at
    events := s.events.map Event.to_dict
    metadata := s.metadata
    state_snapshots := s.state_snapshots.map fun p => (toString p.1, p.2) }

/-- A Python list comprehension whose element expression can raise:
the first failure aborts the whole construction. -/
def mapOpt {α β : Type} (f : α → Option β) : List α → Option (List β)
  | [] => some []
  | x :: xs =>
    match f x with
    | none => none
    | some y => (mapOpt f xs).map fun ys => y :: ys

/-- models.py Session.from_dict: every event must parse and every snapshot
key must parse back with `int(k)` (`String.toNat?` here); any failure
raises, modelled by `none`. -/
def Session.from_dict (d : SessionDoc) : Option Session :=
  match mapOpt Event.from_dict d.events with
  | none => none
  | some events =>
    match mapOpt (fun p => (p.1.toNat?).map fun k => ((k : Nat), p.2))
        d.state_snapshots with
    | none => none
    | some snaps =>
      some
        { session_id := d.session_id
          started_at := d.started_at
          ended_at := d.ended_at
          events := events
          metadata := d.metadata
          state_snapshots := snaps }

/-! ## Recorder (recorder.py)

The recorder is a state machine.  `time.time()` / `datetime.utcnow()` are
modelled by oracles `ts` (timestamp of the event with a given id) and `dur`
(wall-clock duration of the span whose start event has a given id); neither
influences control flow.  The span context manager's stack discipline and
its `finally` block are modelled by the structured `Op.span` constructor
together with an exception flag threaded through the interpreter: the flag
set by `Op.userRaise` models the enclosed block raising, and the span
handler runs its pop/close epilogue regardless of the flag, as the
`finally:` in `Recorder.span` does. -/

/-- Python truthiness of an optional dict argument (`if metadata:`):
true iff present and non-empty. -/
def dictTruthy (d : Option Dict) : Bool :=
  match d with
  | none => false
  | some m => !m.isEmpty

/-- Python truthiness of an optional string argument (`if error:`):
true iff present and non-empty. -/
def strTruthy (s : Option String) : Bool :=
  match s with
  | none => false
  | some v => !(v = "")

/-- Recorder mutable state: the owned session plus `_event_counter`,
`_current_state` and `_event_stack`.  The Python list's top (its end) is
the head of `stack` here. -/
structure RecState where
  session : Session
  counter : Nat
  curState : StateMap
  stack : List Nat
deriving DecidableEq

/-- `Recorder.__init__`: empty session with the given id and metadata. -/
def initState (ts : Nat → String) (session_id : String) (metadata : Dict) :
    RecState :=
  { session :=
      { session_id := session_id
        started_at := ts 0
        ended_at := none
        events := []
        metadata := metadata
        state_snapshots := [] }
    counter := 0
    curState := []
    stack := [] }

/-- `Recorder._create_event` (which calls `_next_id`): assign the next id,
stamp a timestamp, take `parent_id` from the top of the span stack, append
the event, and snapshot the live state when it is non-empty. -/
def createEvent (ts : Nat → String) (s : RecState) (ty : EventType)
    (data : Dict) (duration : Option Rat) (tags : Option (List String)) :
    Event × RecState :=
  let id := s.counter + 1
  let e : Event :=
    { id := id
      timestamp := ts id
      type := ty
      data := data
      duration_ms := duration
      parent_id := s.stack.head?
      tags := tags.getD [] }
  let snaps :=
    if s.curState.isEmpty then s.session.state_snapshots
    else s.session.state_snapshots ++ [(id, s.curState)]
  (e,
    { s with
      counter := id
      session :=
        { s.session with
          events := s.session.events ++ [e]
          state_snapshots := snaps } })

/-- `data` built by `record_input` / `record_output`: `{role, content}`
plus `metadata` when truthy. -/
def ioData (role content : String) (metadata : Option Dict) : Dict :=
  let base := [("role", Value.vstr role), ("content", Value.vstr content)]
  if dictTruthy metadata then base ++ [("metadata", Value.vdict (metadata.getD []))]
  else base

/-- `data` built by `record_llm_call`; `tokens or {}` defaults to empty. -/
def llmData (model : String) (prompt response : Value) (tokens : Option Dict)
    (metadata : Option Dict) : Dict :=
  let base :=
    [("model", Value.vstr model), ("prompt", prompt), ("response", response),
     ("tokens", Value.vdict (tokens.getD []))]
  if dictTruthy metadata then base ++ [("metadata", Value.vdict (metadata.getD []))]
  else base

/-- `data` built by `record_tool_call`: `error` key only when truthy. -/
def toolData (tool : String) (args : Dict) (result : Value) (success : Bool)
    (error : Option String) : Dict :=
  let base :=
    [("tool", Value.vstr tool), ("args", Value.vdict args), ("result", result),
     ("success", Value.vbool success)]
  if strTruthy error then base ++ [("error", Value.vstr (error.getD ""))]
  else base

/-- `data` built by `record_error`: optional keys only when truthy. -/
def errData (error : String) (error_type stack_trace : Option String)
    (context : Option Dict) : Dict :=
  let base := [("error", Value.vstr error)]
  let base :=
    if strTruthy error_type then base ++ [("error_type", Value.vstr (error_type.getD ""))]
    else base
  let base :=
    if strTruthy stack_trace then base ++ [("stack_trace", Value.vstr (stack_trace.getD ""))]
    else base
  if dictTruthy context then base ++ [("context", Value.vdict (context.getD []))]
  else base

/-- `data` built by `record_log`. -/
def logData (level message : String) (data : Option Dict) : Dict :=
  let base := [("level", Value.vstr level), ("message", Value.vstr message)]
  if dictTruthy data then base ++ [("data", Value.vdict (data.getD []))]
  else base

/-- One call against the Recorder's public surface.  `span` carries the
ops executed inside the managed block; `userRaise` is the block raising an
exception at that point. -/
inductive Op where
  | record_input (role content : String) (metadata : Option Dict)
  | record_output (role content : String) (metadata : Option Dict)
  | record_llm_call (model : String) (prompt response : Value)
      (tokens : Option Dict) (duration_ms : Option Rat) (metadata : Option Dict)
  | record_tool_call (tool : String) (args : Dict) (result : Value)
      (duration_ms : Option Rat) (success : Bool) (error : Option String)
  | record_state_change (key : String) (old_value new_value : Value)
  | record_error (error : String) (error_type stack_trace : Option String)
      (context : Option Dict)
  | record_log (level message : String) (data : Option Dict)
  | set_state (key : String) (value : Value)
  | span (name : String) (tags : Option (List String)) (body : List Op)
  | userRaise

mutual

/-- Run one recorder call.  The returned flag is true when an exception is
propagating (only `userRaise` starts one; `span` re-raises after its
`finally` epilogue, exactly as the Python context manager does). -/
def runOp (ts : Nat → String) (dur : Nat → Rat) : Op → RecState → RecState × Bool
  | .record_input role content md, s =>
    ((createEvent ts s .input (ioData role content md) none none).2, false)
  | .record_output role content md, s =>
    ((createEvent ts s .output (ioData role content md) none none).2, false)
  | .record_llm_call model prompt response tokens d md, s =>
    ((createEvent ts s .llm_call (llmData model prompt response tokens md) d none).2,
      false)
  | .record_tool_call tool args result d success err, s =>
    ((createEvent ts s .tool_call (toolData tool args result success err) d none).2,
      false)
  | .record_state_change key old_value new_value, s =>
    let s := { s with curState := aset s.curState (Value.vstr key) new_value }
    ((createEvent ts s .state_change
        [("key", Value.vstr key), ("old_value", old_value),
         ("new_value", new_value)] none none).2, false)
  | .record_error err etype stk ctx, s =>
    ((createEvent ts s .error (errData err etype stk ctx) none (some ["error"])).2,
      false)
  | .record_log level message d, s =>
    ((createEvent ts s .log (logData level message d) none none).2, false)
  | .set_state key value, s =>
    ({ s with curState := aset s.curState (Value.vstr key) value }, false)
  | .userRaise, s => (s, true)
  | .span name tags body, s =>
    let p := createEvent ts s .custom
      [("span", Value.vstr name), ("status", Value.vstr "started")] none tags
    let s2 := { p.2 with stack := p.1.id :: p.2.stack }
    let r := runOps ts dur body s2
    let s4 := { r.1 with stack := r.1.stack.tail }
    ((createEvent ts s4 .custom
        [("span", Value.vstr name), ("status", Value.vstr "completed"),
         ("span_start_id", Value.vint (p.1.id : Int))]
        (some (dur p.1.id)) tags).2, r.2)

/-- Run a sequence of recorder calls; an exception aborts the remainder. -/
def runOps (ts : Nat → String) (dur : Nat → Rat) :
    List Op → RecState → RecState × Bool
  | [], s => (s, false)
  | op :: rest, s =>
    let r := runOp ts dur op s
    if r.2 then (r.1, true) else runOps ts dur rest r.1

end

/-! ## Replayer (replayer.py)

A Replayer is a Session plus a cursor `position`; each method is a pure
function of `(session, position)`.  `none` results model Python
exceptions (`IndexError` / `KeyError`) where the source could raise. -/

/-- `Replayer.has_next`. -/
def hasNext (s : Session) (pos : Nat) : Bool :=
  pos < s.events.length

/-- `Replayer.has_prev`. -/
def hasPrev (pos : Nat) : Bool :=
  0 < pos

/-- `Replayer.step`: the returned event (or `none` at the end) and the new
cursor position. -/
def step (s : Session) (pos : Nat) : Option Event × Nat :=
  if hasNext s pos then (s.events.get? pos, pos + 1) else (none, pos)

/-- `Replayer.step_back`. -/
def step_back (s : Session) (pos : Nat) : Option Event × Nat :=
  if hasPrev pos then (s.events.get? (pos - 1), pos - 1) else (none, pos)

/-- `Replayer.current`. -/
def current (s : Session) (pos : Nat) : Option Event :=
  if pos = 0 then none else s.events.get? (pos - 1)

/-- The linear search loop inside `Replayer.goto`: first event whose id
matches, together with the position just after it. -/
def gotoFind : List Event → Nat → Nat → Option (Event × Nat)
  | [], _, _ => none
  | e :: rest, i, eid =>
    if e.id = eid then some (e, i + 1) else gotoFind rest (i + 1) eid

/-- `Replayer.goto`: by event id (linear search, cursor just after the
match, cursor untouched when absent), else by 0-based position. -/
def goto (s : Session) (pos : Nat) (event_id : Option Nat)
    (position : Option Nat) : Option Event × Nat :=
  match event_id with
  | some eid =>
    match gotoFind s.events 0 eid with
    | some r => (some r.1, r.2)
    | none => (none, pos)
  | none =>
    match position with
    | some p =>
      if p < s.events.length then (s.events.get? p, p + 1) else (none, pos)
    | none => (none, pos)

/-- One iteration of the reconstruction loop in `Replayer.get_state`:
apply a `state_change` event's `{key: new_value}` write; a missing
`"key"`/`"new_value"` entry is a `KeyError` (`none`). -/
def applyChange (st : StateMap) (e : Event) : Option StateMap :=
  if e.type = .state_change then
    match alookup e.data "key", alookup e.data "new_value" with
    | some k, some v => some (aset st k v)
    | _, _ => none
  else some st

/-- The fallback loop of `Replayer.get_state`: scan events from the start,
apply each `state_change`, and stop (inclusively) at the event whose id is
the target.  If no event has the target id the loop runs to the end. -/
def buildStateGo : List Event → Nat → StateMap → Option StateMap
  | [], _, st => some st
  | e :: rest, eid, st =>
    match applyChange st e with
    | none => none
    | some st' => if e.id = eid then some st' else buildStateGo rest eid st'

/-- Resolution of `Replayer.get_state` for a concrete target id: snapshot
hit first, else the reconstruction loop from an empty state. -/
def get_state_at (s : Session) (eid : Nat) : Option StateMap :=
  match alookup s.state_snapshots eid with
  | some snap => some snap
  | none => buildStateGo s.events eid []

/-- `Replayer.get_state`: at cursor 0 with no explicit id the state is
empty; otherwise the target is the given id or the current event's id,
resolved against `state_snapshots` first and reconstructed otherwise. -/
def get_state (s : Session) (pos : Nat) (event_id : Option Nat) :
    Option StateMap :=
  match event_id with
  | none =>
    if pos = 0 then some []
    else
      match s.events.get? (pos - 1) with
      | some e => get_state_at s e.id
      | none => none
  | some eid => get_state_at s eid

/-- `Session.llm_calls`. -/
def llm_calls (s : Session) : List Event :=
  s.events.filter fun e => e.type = .llm_call

/-- The result dict of `Session.get_total_tokens`. -/
structure TokenTotals where
  input : Int
  output : Int
  total : Int
deriving DecidableEq

/-- `tokens.get(k, 0)` followed by `+=`: missing counts as 0, a bool is a
Python int (True == 1), any other value is a `TypeError` (`none`). -/
def tokenCount (v : Option Value) : Option Int :=
  match v with
  | none => some 0
  | some (.vint n) => some n
  | some (.vbool b) => some (if b then 1 else 0)
  | some _ => none

/-- `event.data.get("tokens", {})` then treated as a dict: a non-dict
value makes the subsequent `.get` an `AttributeError` (`none`). -/
def tokensOf (e : Event) : Option Dict :=
  match alookup e.data "tokens" with
  | none => some []
  | some (.vdict xs) => some xs
  | some _ => none

/-- The accumulation loop of `Session.get_total_tokens`. -/
def sumTokens : List Event → Int × Int → Option (Int × Int)
  | [], acc => some acc
  | e :: rest, acc =>
    match tokensOf e with
    | none => none
    | some tk =>
      match tokenCount (alookup tk "input"), tokenCount (alookup tk "output") with
      | some i, some o => sumTokens rest (acc.1 + i, acc.2 + o)
      | _, _ => none

/-- `Session.get_total_tokens`: sum `tokens.input` / `tokens.output` over
all `llm_call` events. -/
def get_total_tokens (s : Session) : Option TokenTotals :=
  match sumTokens (llm_calls s) (0, 0) with
  | none => none
  | some acc => some ⟨acc.1, acc.2, acc.1 + acc.2⟩

/-- One entry of `diff`'s `output_diffs` list. -/
structure DiffEntry where
  index : Nat
  selfData : Dict
  otherData : Dict
deriving DecidableEq

/-- The result dict of `Replayer.diff`. -/
structure DiffResult where
  self_events : Nat
  other_events : Nat
  self_tokens : TokenTotals
  other_tokens : TokenTotals
  output_diffs : List DiffEntry
  same_outputs : Bool
deriving DecidableEq

/-- `{e.id: e for e in events}` keeps one entry per distinct id; this is
the list of distinct ids in first-occurrence order. -/
def distinctIds (events : List Event) : List Nat :=
  events.foldl (fun acc e => if e.id ∈ acc then acc else acc ++ [e.id]) []

/-- The `output`-typed events of a session, in original order. -/
def outputs (s : Session) : List Event :=
  s.events.filter fun e => e.type = .output

/-- The diff-entry loop of `Replayer.diff`: pair the two output lists
positionally (`zip` truncates at the shorter), keep an entry exactly for
the pairs whose `data` differ. -/
def outputDiffs (a b : List Event) : List DiffEntry :=
  (a.zip b).enum.filterMap fun p =>
    if p.2.1.data = p.2.2.data then none
    else some ⟨p.1, p.2.1.data, p.2.2.data⟩

/-- `Replayer.diff`: event counts via the id-keyed dicts, token totals of
both sessions, positional output diffs, and the identical-outputs flag. -/
def diff (s o : Session) : Option DiffResult :=
  match get_total_tokens s, get_total_tokens o with
  | some st, some ot =>
    let ds := outputDiffs (outputs s) (outputs o)
    some
      { self_events := (distinctIds s.events).length
        other_events := (distinctIds o.events).length
        self_tokens := st
        other_tokens := ot
        output_diffs := ds
        same_outputs := ds.length = 0 }
  | _, _ => none

/-! ## Analysis helpers

Spec-side functions used to state the claims: they describe behaviours in
the spec's vocabulary and are proved to coincide with the embedded code. -/

/-- Convenience: final recorder state after a sequence of calls on a fresh
recorder. -/
def runRec (ts : Nat → String) (dur : Nat → Rat) (session_id : String)
    (metadata : Dict) (ops : List Op) : RecState :=
  (runOps ts dur ops (initState ts session_id metadata)).1

mutual

/-- Whether a call lets an exception escape (a span re-raises its body's
exception after the `finally` epilogue). -/
def raisesOp : Op → Bool
  | .userRaise => true
  | .span _ _ body => raisesList body
  | .record_input _ _ _ | .record_output _ _ _ | .record_llm_call _ _ _ _ _ _
  | .record_tool_call _ _ _ _ _ _ | .record_state_change _ _ _
  | .record_error _ _ _ _ | .record_log _ _ _ | .set_state _ _ => false

/-- Whether running a sequence ends with an exception propagating. -/
def raisesList : List Op → Bool
  | [] => false
  | op :: rest => raisesOp op || raisesList rest

end

mutual

/-- How many events one call appends (a span: start, its body's events up
to a raise, and the closing event emitted by the `finally`). -/
def emitsOp : Op → Nat
  | .set_state _ _ => 0
  | .userRaise => 0
  | .span _ _ body => 2 + emitsList body
  | .record_input _ _ _ | .record_output _ _ _ | .record_llm_call _ _ _ _ _ _
  | .record_tool_call _ _ _ _ _ _ | .record_state_change _ _ _
  | .record_error _ _ _ _ | .record_log _ _ _ => 1

/-- How many events a sequence appends before an exception (if any) stops
it. -/
def emitsList : List Op → Nat
  | [] => 0
  | op :: rest =>
    if raisesOp op then emitsOp op else emitsOp op + emitsList rest

end

/-- A call that is not a span (it never touches the span stack). -/
def Op.isSimple : Op → Bool
  | .span _ _ _ => false
  | _ => true

mutual

/-- Whether a call avoids `set_state` (including inside span bodies). -/
def Op.noSet : Op → Bool
  | .set_state _ _ => false
  | .span _ _ body => noSetList body
  | _ => true

def noSetList : List Op → Bool
  | [] => true
  | op :: rest => op.noSet && noSetList rest

end

/-- The prefix of a list up to and including the first element satisfying
`p` (the whole list when none does). -/
def takeThrough {α : Type} (p : α → Bool) : List α → List α
  | [] => []
  | x :: xs => if p x then [x] else x :: takeThrough p xs

/-- Fold of `state_change` writes over a whole event list (no early
stop). -/
def applyChanges : List Event → StateMap → Option StateMap
  | [], st => some st
  | e :: rest, st =>
    match applyChange st e with
    | none => none
    | some st' => applyChanges rest st'

/-- The spec's description of state reconstruction: scan the events from
the start up to and including the one with the target id, folding every
`state_change` event's `{key: new_value}` write over an empty state. -/
def replayTo (events : List Event) (eid : Nat) : Option StateMap :=
  applyChanges (takeThrough (fun e => e.id = eid) events) []

/-! ## Concrete sessions used by examples, witnesses and counterexamples -/

/-- A non-`state_change` filler event. -/
def logEv (id : Nat) : Event :=
  { id := id, timestamp := "t", type := .log
    data := [("level", Value.vstr "info"), ("message", Value.vstr "m")] }

/-- A `state_change` event writing `key := v`, as the recorder builds it. -/
def chgEv (id : Nat) (key : String) (old new : Value) : Event :=
  { id := id, timestamp := "t", type := .state_change
    data := [("key", Value.vstr key), ("old_value", old), ("new_value", new)] }

/-- The session of the spec's reconstruction example: nine events, with
`state_change(k,_,1)` at id 3 and `state_change(k,_,2)` at id 7, and no
snapshots. -/
def exSession : Session :=
  { session_id := "ex"
    started_at := "t0"
    events :=
      [logEv 1, logEv 2, chgEv 3 "k" Value.vnull (Value.vint 1), logEv 4,
       logEv 5, logEv 6, chgEv 7 "k" (Value.vint 1) (Value.vint 2), logEv 8,
       logEv 9]
    state_snapshots := [] }

/-- A one-event session carrying a snapshot for id 1. -/
def snapSession : Session :=
  { session_id := "sn"
    started_at := "t0"
    events := [logEv 1]
    state_snapshots := [(1, [(Value.vstr "k", Value.vint 7)])] }

/-- A session whose two events share one id, as `Session.from_dict`
happily produces; `diff` collapses them in its id-keyed event dict. -/
def dupIdSession : Session :=
  { session_id := "dup"
    started_at := "t0"
    events := [logEv 1, logEv 1] }

/-- An `output` event with the recorder's `{role, content}` payload. -/
def outEv (id : Nat) (content : String) : Event :=
  { id := id, timestamp := "t", type := .output
    data := [("role", Value.vstr "assistant"), ("content", Value.vstr content)] }

/-- Two-output session, first side of the diff example. -/
def outSessionA : Session :=
  { session_id := "a", started_at := "t0", events := [outEv 1 "x", outEv 2 "y"] }

/-- Two-output session differing from `outSessionA` in its second
output. -/
def outSessionB : Session :=
  { session_id := "b", started_at := "t0", events := [outEv 1 "x", outEv 2 "z"] }

/-- The diff result of `outSessionA` against `outSessionB`. -/
def diffAB : DiffResult :=
  { self_events := 2
    other_events := 2
    self_tokens := ⟨0, 0, 0⟩
    other_tokens := ⟨0, 0, 0⟩
    output_diffs :=
      [⟨1, [("role", Value.vstr "assistant"), ("content", Value.vstr "y")],
        [("role", Value.vstr "assistant"), ("content", Value.vstr "z")]⟩]
    same_outputs := false }

/-- A serialized session carrying an event whose type tag is not one of
the eight recognized tags. -/
def bogusDoc : SessionDoc :=
  { session_id := "s"
    started_at := "t0"
    ended_at := none
    events := [⟨1, "t", "bogus", [], none, none, []⟩]
    metadata := []
    state_snapshots := [] }

/-- The decimal digit list of a natural number, most significant digit
first — the list `Nat.toDigits 10` computes, in direct recursive form. -/
def repChars (n : Nat) : List Char :=
  if _h : n < 10 then [Nat.digitChar n]
  else repChars (n / 10) ++ [Nat.digitChar (n % 10)]
decreasing_by
  simp_wf
  exact Nat.div_lt_self (by omega) (by omega)

/-! ## Theorems -/

/-- The id-search loop of `goto` returns the first matching event. -/
theorem gotoFind_fst (eid : Nat) :
    ∀ (l : List Event) (i : Nat),
      (gotoFind l i eid).map Prod.fst = l.find? fun e => e.id = eid := by
  intro l
  induction l with
  | nil => intro i; rfl
  | cons e rest ih =>
    intro i
    by_cases h : e.id = eid
    · simp [gotoFind, h, List.find?_cons]
    · simp only [gotoFind, if_neg h, List.find?_cons]
      rw [ih]
      simp [h]

/-- The id-search loop of `goto` reports the position one past the first
matching index. -/
theorem gotoFind_snd (eid : Nat) :
    ∀ (l : List Event) (i : Nat),
      (gotoFind l i eid).map Prod.snd =
        (l.findIdx? fun e => e.id = eid).map fun j => i + j + 1 := by
  intro l
  induction l with
  | nil => intro i; rfl
  | cons e rest ih =>
    intro i
    by_cases h : e.id = eid
    · simp [gotoFind, h, List.findIdx?_cons]
    · simp only [gotoFind, if_neg h, List.findIdx?_cons, h, decide_False,
        Bool.false_eq_true, if_false, List.findIdx?_succ]
      rw [ih]
      simp only [Option.map_map]
      congr 1
      funext j
      simp only [Function.comp_apply]
      omega

/-- C9: `goto(event_id)` returns the first event carrying that id and
places the cursor at the index immediately after it; when no event has
that id it returns `None` and the cursor stays where it was. -/
theorem goto_spec (s : Session) (pos eid : Nat) :
    (goto s pos (some eid) none).1 = (s.events.find? fun e => e.id = eid) ∧
    (goto s pos (some eid) none).2 =
      (match s.events.findIdx? fun e => e.id = eid with
       | some j => j + 1
       | none => pos) := by
  have h1 := gotoFind_fst eid s.events 0
  have h2 := gotoFind_snd eid s.events 0
  have hgoto : goto s pos (some eid) none =
      (match gotoFind s.events 0 eid with
       | some r => (some r.1, r.2)
       | none => (none, pos)) := rfl
  cases hg : gotoFind s.events 0 eid with
  | none =>
    rw [hg] at h1 h2 hgoto
    rw [hgoto]
    simp only [Option.map_none'] at h1 h2
    refine ⟨h1, ?_⟩
    cases hf : s.events.findIdx? fun e => e.id = eid with
    | none => rfl
    | some j => rw [hf] at h2; simp at h2
  | some r =>
    rw [hg] at h1 h2 hgoto
    rw [hgoto]
    simp only [Option.map_some'] at h1 h2
    refine ⟨h1, ?_⟩
    cases hf : s.events.findIdx? fun e => e.id = eid with
    | none => rw [hf] at h2; simp at h2
    | some j =>
      rw [hf] at h2
      simp only [Option.map_some', Option.some.injEq] at h2
      show r.2 = j + 1
      omega

/-- C10: one `step` followed by one `step_back` returns the event at the
cursor's index from both calls and restores the cursor; at the end of the
timeline `step` is a no-op returning `None`, and at position 0 `step_back`
is a no-op returning `None`. -/
theorem step_step_back_spec (s : Session) (p : Nat)
    (h : p < s.events.length) :
    (step s p).1 = s.events.get? p ∧
    (step s p).1.isSome = true ∧
    (step s p).2 = p + 1 ∧
    step_back s (step s p).2 = ((step s p).1, p) ∧
    step s s.events.length = (none, s.events.length) ∧
    step_back s 0 = (none, 0) := by
  refine ⟨?_, ?_, ?_, ?_, ?_, ?_⟩
  · simp [step, hasNext, h]
  · simp [step, hasNext, h, List.get?_eq_get h]
  · simp [step, hasNext, h]
  · simp [step, step_back, hasNext, hasPrev, h]
  · simp [step, hasNext]
  · simp [step_back, hasPrev]

/-- Witness for C10 on the example session at cursor 0. -/
theorem step_step_back_spec_witness :
    0 < exSession.events.length ∧
    (step exSession 0).1 = exSession.events.get? 0 ∧
    (step exSession 0).2 = 1 := by
  have h : 0 < exSession.events.length := by decide
  have hs := step_step_back_spec exSession 0 h
  exact ⟨h, hs.1, hs.2.2.1⟩

/-- An unrecognized tag string is rejected by the `EventType` lookup. -/
theorem eventTypeOfString_none (t : String)
    (h : t ∉ (["input", "output", "llm_call", "tool_call", "state_change",
               "error", "log", "custom"] : List String)) :
    eventTypeOfString t = none := by
  simp only [List.mem_cons, not_or] at h
  simp [eventTypeOfString, h.1, h.2.1, h.2.2.1, h.2.2.2.1, h.2.2.2.2.1,
    h.2.2.2.2.2.1, h.2.2.2.2.2.2.1, h.2.2.2.2.2.2.2.1]

/-- If one element fails, the whole comprehension fails. -/
theorem mapOpt_eq_none {α β : Type} (f : α → Option β) :
    ∀ (l : List α) (x : α), x ∈ l → f x = none → mapOpt f l = none := by
  intro l
  induction l with
  | nil => intro x hx; exact absurd hx (List.not_mem_nil x)
  | cons y ys ih =>
    intro x hx hfx
    rcases List.mem_cons.1 hx with rfl | hmem
    · simp [mapOpt, hfx]
    · cases hy : f y with
      | none => simp [mapOpt, hy]
      | some b => simp [mapOpt, hy, ih x hmem hfx]

/-- C7: loading a persisted session document containing an event whose
type tag is not one of the eight recognized tags fails (returns no
session) instead of coercing the event to `custom`. -/
theorem from_dict_rejects_unknown_tag (d : SessionDoc) (ed : EventDoc)
    (hmem : ed ∈ d.events)
    (htag : ed.type ∉ (["input", "output", "llm_call", "tool_call",
      "state_change", "error", "log", "custom"] : List String)) :
    Session.from_dict d = none := by
  have hev : Event.from_dict ed = none := by
    simp [Event.from_dict, eventTypeOfString_none ed.type htag]
  have hm : mapOpt Event.from_dict d.events = none :=
    mapOpt_eq_none Event.from_dict d.events ed hmem hev
  simp [Session.from_dict, hm]

/-- Witness for C7 on a document whose single event has tag "bogus". -/
theorem from_dict_rejects_unknown_tag_witness :
    Session.from_dict bogusDoc = none :=
  from_dict_rejects_unknown_tag bogusDoc ⟨1, "t", "bogus", [], none, none, []⟩
    (by simp [bogusDoc]) (by decide)

/-- When no element satisfies the predicate, `takeThrough` keeps the whole
list. -/
theorem takeThrough_all_neg {α : Type} (p : α → Bool) :
    ∀ l : List α, (∀ x ∈ l, p x = false) → takeThrough p l = l := by
  intro l
  induction l with
  | nil => intro _; rfl
  | cons x xs ih =>
    intro h
    have hx : p x = false := h x (List.mem_cons_self x xs)
    simp only [takeThrough, hx, Bool.false_eq_true, if_false, List.cons.injEq,
      true_and]
    exact ih fun y hy => h y (List.mem_cons_of_mem x hy)

/-- The `get_state` reconstruction loop equals the spec's description:
fold the `state_change` writes over the prefix that stops (inclusively) at
the first event with the target id. -/
theorem buildStateGo_eq_takeThrough :
    ∀ (l : List Event) (eid : Nat) (st : StateMap),
      buildStateGo l eid st =
        applyChanges (takeThrough (fun e => e.id = eid) l) st := by
  intro l
  induction l with
  | nil => intro eid st; rfl
  | cons e rest ih =>
    intro eid st
    by_cases h : e.id = eid
    · simp only [buildStateGo, takeThrough, h, decide_True, if_true]
      cases hA : applyChange st e with
      | none => simp [applyChanges, hA]
      | some st' => simp [applyChanges, hA]
    · simp only [buildStateGo, takeThrough, h, decide_False,
        Bool.false_eq_true, if_false]
      cases hA : applyChange st e with
      | none => simp [applyChanges, hA]
      | some st' =>
        simp only [applyChanges, hA]
        exact ih eid st'

/-- C3: `get_state` resolution order — empty mapping at cursor 0 with no
argument; with no argument the target is the current event's id; a
snapshot hit is returned as-is; otherwise the state is rebuilt by folding
`state_change` writes up to and including the target id.  On the spec's
example session (changes at ids 3 and 7, no snapshots), `get_state(5)` is
`{k: 1}` and `get_state(9)` is `{k: 2}`. -/
theorem get_state_resolution (s : Session) (pos eid : Nat) :
    get_state s 0 none = some [] ∧
    (∀ e, current s pos = some e → get_state s pos none = get_state_at s e.id) ∧
    (∀ snap, alookup s.state_snapshots eid = some snap →
      get_state s pos (some eid) = some snap) ∧
    (alookup s.state_snapshots eid = none →
      get_state s pos (some eid) = replayTo s.events eid) ∧
    get_state exSession 0 (some 5) = some [(Value.vstr "k", Value.vint 1)] ∧
    get_state exSession 0 (some 9) = some [(Value.vstr "k", Value.vint 2)] := by
  refine ⟨rfl, ?_, ?_, ?_, by decide, by decide⟩
  · intro e he
    by_cases hp : pos = 0
    · rw [hp] at he; exact absurd he (by simp [current])
    · unfold current at he
      rw [if_neg hp] at he
      unfold get_state
      rw [if_neg hp, he]
  · intro snap hsnap
    show get_state_at s eid = some snap
    unfold get_state_at
    rw [hsnap]
  · intro hmiss
    show get_state_at s eid = replayTo s.events eid
    unfold get_state_at
    rw [hmiss]
    exact buildStateGo_eq_takeThrough s.events eid []

/-- Witness for C3: the current-event path, the snapshot-miss path on the
example session, and a snapshot-hit path on a one-event session. -/
theorem get_state_resolution_witness :
    get_state exSession 1 none = get_state_at exSession (logEv 1).id ∧
    get_state exSession 1 (some 3) = replayTo exSession.events 3 ∧
    get_state snapSession 0 (some 1) = some [(Value.vstr "k", Value.vint 7)] :=
  ⟨(get_state_resolution exSession 1 3).2.1 (logEv 1) (by decide),
   (get_state_resolution exSession 1 3).2.2.2.1 (by decide),
   (get_state_resolution snapSession 0 1).2.2.1 [(Value.vstr "k", Value.vint 7)]
     (by decide)⟩

/-- Counterexample for C8: `get_state` on an id that no event carries does
not fail — on the example session (no event has id 100, nothing raises) it
returns the fold of all `state_change` events as an ordinary mapping. -/
theorem get_state_missing_id_no_error :
    exSession.events.all (fun e => e.id != 100) = true ∧
    get_state exSession 0 (some 100) = some [(Value.vstr "k", Value.vint 2)] :=
  ⟨by decide, by decide⟩

/-- C8 as amended: with an event id absent from the event list (and no
snapshot under that key), `get_state` raises nothing; the reconstruction
loop never hits its stop condition and the result is the fold of every
`state_change` event in the session. -/
theorem get_state_missing_id (s : Session) (pos eid : Nat)
    (hsnap : alookup s.state_snapshots eid = none)
    (hmem : ∀ e ∈ s.events, e.id ≠ eid) :
    get_state s pos (some eid) = applyChanges s.events [] := by
  show get_state_at s eid = applyChanges s.events []
  unfold get_state_at
  rw [hsnap, buildStateGo_eq_takeThrough,
    takeThrough_all_neg _ s.events fun e he => by simp [hmem e he]]

/-- Witness for C8's amended statement on the example session. -/
theorem get_state_missing_id_witness :
    get_state exSession 0 (some 100) = applyChanges exSession.events [] :=
  get_state_missing_id exSession 0 100 (by decide)
    (by intro e he; fin_cases he <;> decide)

/-- An entry sits in `outputDiffs` exactly when the two output lists hold
events at its index (positional pairing, truncated at the shorter list)
whose `data` differ, and the entry carries those two payloads. -/
theorem mem_outputDiffs (la lb : List Event) (i : Nat) (a b : Dict) :
    (⟨i, a, b⟩ : DiffEntry) ∈ outputDiffs la lb ↔
      ∃ e1 e2, la.get? i = some e1 ∧ lb.get? i = some e2 ∧
        e1.data ≠ e2.data ∧ a = e1.data ∧ b = e2.data := by
  unfold outputDiffs
  rw [List.mem_filterMap]
  constructor
  · rintro ⟨⟨j, e1, e2⟩, hmem, hf⟩
    by_cases hd : e1.data = e2.data
    · rw [if_pos hd] at hf; exact absurd hf (by simp)
    · rw [if_neg hd] at hf
      obtain ⟨rfl, rfl, rfl⟩ : j = i ∧ e1.data = a ∧ e2.data = b := by
        have := Option.some.inj hf
        exact ⟨congrArg DiffEntry.index this, congrArg DiffEntry.selfData this,
          congrArg DiffEntry.otherData this⟩
      refine ⟨e1, e2, ?_, ?_, hd, rfl, rfl⟩
      · have h := List.mk_mem_enum_iff_getElem?.1 hmem
        have := List.getElem?_zip_eq_some.1 h
        simpa [List.get?_eq_getElem?] using this.1
      · have h := List.mk_mem_enum_iff_getElem?.1 hmem
        have := List.getElem?_zip_eq_some.1 h
        simpa [List.get?_eq_getElem?] using this.2
  · rintro ⟨e1, e2, h1, h2, hd, rfl, rfl⟩
    refine ⟨(i, e1, e2), ?_, by simp [hd]⟩
    rw [List.mk_mem_enum_iff_getElem?]
    rw [List.getElem?_zip_eq_some]
    rw [List.get?_eq_getElem?] at h1 h2
    exact ⟨h1, h2⟩

/-- Counterexample for C6: `diff` reports `len({e.id: e for e in events})`,
the number of distinct event ids, not the session's total event count —
on a session with two events sharing id 1 the two differ. -/
theorem diff_counts_distinct_ids :
    (diff dupIdSession dupIdSession).map DiffResult.self_events = some 1 ∧
    dupIdSession.events.length = 2 :=
  ⟨by decide, by decide⟩

/-- C6 as amended: a successful `diff` pairs the two sessions' output
events positionally (truncating at the shorter list) and records an entry
exactly for pairs with unequal `data`; it reports each session's count of
distinct event ids (the total event count whenever ids are unique), both
token totals, and an identical-outputs flag that holds iff the entry list
is empty. -/
theorem diff_spec (s o : Session) (r : DiffResult)
    (h : diff s o = some r) :
    r.self_events = (distinctIds s.events).length ∧
    r.other_events = (distinctIds o.events).length ∧
    get_total_tokens s = some r.self_tokens ∧
    get_total_tokens o = some r.other_tokens ∧
    (∀ i a b, (⟨i, a, b⟩ : DiffEntry) ∈ r.output_diffs ↔
      ∃ e1 e2, (outputs s).get? i = some e1 ∧ (outputs o).get? i = some e2 ∧
        e1.data ≠ e2.data ∧ a = e1.data ∧ b = e2.data) ∧
    (r.same_outputs = true ↔ r.output_diffs = []) := by
  unfold diff at h
  cases hs : get_total_tokens s with
  | none => rw [hs] at h; exact absurd h (by simp)
  | some st =>
    cases ho : get_total_tokens o with
    | none => rw [hs, ho] at h; exact absurd h (by simp)
    | some ot =>
      rw [hs, ho] at h
      simp only [Option.some.injEq] at h
      subst h
      refine ⟨rfl, rfl, rfl, rfl, ?_, ?_⟩
      · intro i a b
        exact mem_outputDiffs (outputs s) (outputs o) i a b
      · simp [List.length_eq_zero]

/-- Witness for C6's amended statement on two concrete two-output
sessions differing in the second output. -/
theorem diff_spec_witness :
    diff outSessionA outSessionB = some diffAB ∧
    diffAB.self_events = (distinctIds outSessionA.events).length ∧
    (diffAB.same_outputs = true ↔ diffAB.output_diffs = []) := by
  have h : diff outSessionA outSessionB = some diffAB := by decide
  have hs := diff_spec outSessionA outSessionB diffAB h
  exact ⟨h, hs.1, hs.2.2.2.2.2⟩

/-- `Nat.toDigitsCore` with enough fuel computes `repChars`. -/
theorem toDigitsCore_eq_repChars :
    ∀ (fuel n : Nat) (ds : List Char), n < fuel →
      Nat.toDigitsCore 10 fuel n ds = repChars n ++ ds := by
  intro fuel
  induction fuel with
  | zero => intro n ds h; exact absurd h (Nat.not_lt_zero n)
  | succ f ih =>
    intro n ds h
    show (if n / 10 = 0 then Nat.digitChar (n % 10) :: ds
          else Nat.toDigitsCore 10 f (n / 10) (Nat.digitChar (n % 10) :: ds)) =
        repChars n ++ ds
    by_cases h10 : n / 10 = 0
    · have hn : n < 10 := by omega
      rw [if_pos h10, repChars]
      simp [hn, Nat.mod_eq_of_lt hn]
    · have hge : ¬n < 10 := by
        intro hlt
        exact h10 (Nat.div_eq_of_lt hlt)
      have hdiv : n / 10 < n := Nat.div_lt_self (by omega) (by omega)
      rw [if_neg h10, repChars]
      rw [dif_neg hge]
      rw [ih (n / 10) _ (by omega)]
      simp [List.append_assoc]

/-- Every digit of `repChars` is a decimal digit character. -/
theorem repChars_digits :
    ∀ n : Nat, ∀ c ∈ repChars n, c.isDigit = true := by
  have hchar : ∀ d : Nat, d < 10 → (Nat.digitChar d).isDigit = true := by decide
  intro n
  induction n using Nat.strong_induction_on with
  | _ n ih =>
    intro c hc
    rw [repChars] at hc
    by_cases h10 : n < 10
    · rw [dif_pos h10] at hc
      rcases List.mem_singleton.1 hc with rfl
      exact hchar n h10
    · rw [dif_neg h10] at hc
      rcases List.mem_append.1 hc with hl | hr
      · exact ih (n / 10) (Nat.div_lt_self (by omega) (by omega)) c hl
      · rcases List.mem_singleton.1 hr with rfl
        exact hchar (n % 10) (Nat.mod_lt n (by omega))

/-- `repChars` never produces the empty list. -/
theorem repChars_ne_nil (n : Nat) : repChars n ≠ [] := by
  rw [repChars]
  by_cases h10 : n < 10
  · rw [dif_pos h10]; simp
  · rw [dif_neg h10]; simp

/-- Folding the decimal reconstruction step over `repChars n` recovers
`n` (with the accumulator scaled by the digit count). -/
theorem repChars_foldl :
    ∀ n a : Nat,
      (repChars n).foldl (fun acc c => acc * 10 + (c.toNat - Char.toNat '0')) a
        = a * 10 ^ (repChars n).length + n := by
  have hchar : ∀ d : Nat, d < 10 →
      (Nat.digitChar d).toNat - Char.toNat '0' = d := by decide
  intro n
  induction n using Nat.strong_induction_on with
  | _ n ih =>
    intro a
    rw [repChars]
    by_cases h10 : n < 10
    · rw [dif_pos h10]
      show a * 10 + ((Nat.digitChar n).toNat - Char.toNat '0')
          = a * 10 ^ 1 + n
      rw [hchar n h10]
      ring
    · rw [dif_neg h10]
      rw [List.foldl_append, ih (n / 10) (Nat.div_lt_self (by omega) (by omega)) a]
      simp only [List.length_append, List.length_singleton]
      show (a * 10 ^ (repChars (n / 10)).length + n / 10) * 10 +
          ((Nat.digitChar (n % 10)).toNat - Char.toNat '0')
        = a * 10 ^ ((repChars (n / 10)).length + 1) + n
      rw [hchar (n % 10) (Nat.mod_lt n (by omega))]
      have hmod : 10 * (n / 10) + n % 10 = n := Nat.div_add_mod n 10
      calc (a * 10 ^ (repChars (n / 10)).length + n / 10) * 10 + n % 10
          = a * (10 ^ (repChars (n / 10)).length * 10) +
            (10 * (n / 10) + n % 10) := by ring
        _ = a * (10 ^ (repChars (n / 10)).length * 10) + n := by rw [hmod]
        _ = a * 10 ^ ((repChars (n / 10)).length + 1) + n := by rw [pow_succ]

/-- `str(k)` followed by `int(k)` on a natural number is the identity:
the decimal rendering of `n` parses back to `n`. -/
theorem nat_toString_toNat (n : Nat) : (toString n).toNat? = some n := by
  have hrepr : toString n = (repChars n).asString := by
    show Nat.repr n = (repChars n).asString
    unfold Nat.repr Nat.toDigits
    rw [toDigitsCore_eq_repChars (n + 1) n [] (Nat.lt_succ_self n)]
    rw [List.append_nil]
  rw [hrepr]
  have hdata : ((repChars n).asString).data = repChars n := rfl
  have hne : ((repChars n).asString).isEmpty = false := by
    rw [Bool.eq_false_iff]
    intro hemp
    rw [String.isEmpty_iff] at hemp
    exact repChars_ne_nil n (congrArg String.data hemp)
  have hall : ((repChars n).asString).all Char.isDigit = true := by
    rw [String.all_eq, hdata]
    exact List.all_eq_true.2 fun c hc => repChars_digits n c hc
  have hnat : ((repChars n).asString).isNat = true := by
    unfold String.isNat
    rw [hne, hall]
    rfl
  unfold String.toNat?
  rw [if_pos hnat]
  rw [String.foldl_eq, hdata, repChars_foldl n 0]
  simp

/-- The `EventType` string lookup inverts `.value`. -/
theorem eventType_value_round (t : EventType) :
    eventTypeOfString t.value = some t := by
  cases t <;> rfl

/-- One event round-trips through its serialized form. -/
theorem event_round_trip (e : Event) :
    Event.from_dict (Event.to_dict e) = some e := by
  simp [Event.from_dict, Event.to_dict, eventType_value_round]

/-- An event list round-trips elementwise. -/
theorem mapOpt_events_round :
    ∀ l : List Event, mapOpt Event.from_dict (l.map Event.to_dict) = some l := by
  intro l
  induction l with
  | nil => rfl
  | cons e rest ih =>
    simp [mapOpt, event_round_trip e, ih]

/-- Snapshot entries round-trip: textual keys parse back to the original
numeric keys. -/
theorem mapOpt_snaps_round :
    ∀ l : List (Nat × StateMap),
      mapOpt (fun p => (p.1.toNat?).map fun k => ((k : Nat), p.2))
        (l.map fun p => (toString p.1, p.2)) = some l := by
  intro l
  induction l with
  | nil => rfl
  | cons p rest ih =>
    simp [mapOpt, nat_toString_toNat p.1, ih]

/-- C2: deserializing a serialized session reproduces an equal session —
same event order, ids, payloads and event types, with the snapshot keys
converted from their textual form back to the original integers. -/
theorem session_round_trip (s : Session) :
    Session.from_dict (Session.to_dict s) = some s := by
  show Session.from_dict
      { session_id := s.session_id
        started_at := s.started_at
        ended_at := s.ended_at
        events := s.events.map Event.to_dict
        metadata := s.metadata
        state_snapshots := s.state_snapshots.map fun p => (toString p.1, p.2) }
      = some s
  unfold Session.from_dict
  rw [mapOpt_events_round s.events]
  rw [mapOpt_snaps_round s.state_snapshots]

/-- `range' a (2+m)` split as first element, middle block, last element. -/
theorem range'_two_plus (a m : Nat) :
    List.range' a (2 + m) = a :: (List.range' (a + 1) m ++ [a + m + 1]) := by
  have h1 : 2 + m = (m + 1) + 1 := by omega
  rw [h1, List.range'_succ]
  rw [List.range'_1_concat (a + 1) m]
  have h3 : a + 1 + m = a + m + 1 := by omega
  rw [h3]

/-- What one `_create_event` call does to the recorder state: it bumps the
counter, appends exactly one event carrying the fresh id and the top of
the span stack as parent, leaves stack and live state alone, and snapshots
the live state when non-empty. -/
theorem createEvent_spec (ts : Nat → String) (s : RecState) (ty : EventType)
    (data : Dict) (dms : Option Rat) (tags : Option (List String)) :
    (createEvent ts s ty data dms tags).2.counter = s.counter + 1 ∧
    (createEvent ts s ty data dms tags).2.stack = s.stack ∧
    (createEvent ts s ty data dms tags).2.curState = s.curState ∧
    (createEvent ts s ty data dms tags).2.session.events =
      s.session.events ++ [(createEvent ts s ty data dms tags).1] ∧
    (createEvent ts s ty data dms tags).1 =
      { id := s.counter + 1
        timestamp := ts (s.counter + 1)
        type := ty
        data := data
        duration_ms := dms
        parent_id := s.stack.head?
        tags := tags.getD [] } ∧
    (createEvent ts s ty data dms tags).2.session.state_snapshots =
      (if s.curState.isEmpty then s.session.state_snapshots
       else s.session.state_snapshots ++ [(s.counter + 1, s.curState)]) :=
  ⟨rfl, rfl, rfl, rfl, rfl, rfl⟩

mutual

/-- Shape of one recorder call: the exception flag is `raisesOp`, the span
stack is restored, the counter advances by the number of emitted events,
and the emitted events carry exactly the freshly assigned consecutive
ids. -/
theorem runOp_shape (ts : Nat → String) (dur : Nat → Rat) (op : Op)
    (s : RecState) :
    (runOp ts dur op s).2 = raisesOp op ∧
    (runOp ts dur op s).1.stack = s.stack ∧
    (runOp ts dur op s).1.counter = s.counter + emitsOp op ∧
    ∃ d, (runOp ts dur op s).1.session.events = s.session.events ++ d ∧
      d.map (fun e => e.id) = List.range' (s.counter + 1) (emitsOp op) := by
  cases op with
  | span name tags body =>
    have hp := createEvent_spec ts s .custom
      [("span", Value.vstr name), ("status", Value.vstr "started")] none tags
    set p := createEvent ts s .custom
      [("span", Value.vstr name), ("status", Value.vstr "started")] none tags
      with hpdef
    have hb := runOps_shape ts dur body
      { p.2 with stack := p.1.id :: p.2.stack }
    set s2 := { p.2 with stack := p.1.id :: p.2.stack } with hs2def
    set r := runOps ts dur body s2 with hrdef
    have hc := createEvent_spec ts { r.1 with stack := r.1.stack.tail } .custom
      [("span", Value.vstr name), ("status", Value.vstr "completed"),
       ("span_start_id", Value.vint (p.1.id : Int))] (some (dur p.1.id)) tags
    set s4 := { r.1 with stack := r.1.stack.tail } with hs4def
    set q := createEvent ts s4 .custom
      [("span", Value.vstr name), ("status", Value.vstr "completed"),
       ("span_start_id", Value.vint (p.1.id : Int))] (some (dur p.1.id)) tags
      with hqdef
    have hrun : runOp ts dur (Op.span name tags body) s = (q.2, r.2) := rfl
    rw [hrun]
    obtain ⟨hbflag, hbstack, hbcount, d, hbev, hbids⟩ := hb
    refine ⟨hbflag, ?_, ?_, ?_⟩
    · rw [hc.2.1]
      show r.1.stack.tail = s.stack
      rw [hbstack]
      show p.2.stack = s.stack
      exact hp.2.1
    · rw [hc.1, hbcount]
      show s2.counter + emitsList body + 1 = s.counter + emitsOp (Op.span name tags body)
      have : s2.counter = s.counter + 1 := hp.1
      rw [this]
      show s.counter + 1 + emitsList body + 1 = s.counter + (2 + emitsList body)
      omega
    · refine ⟨p.1 :: (d ++ [q.1]), ?_, ?_⟩
      · rw [hc.2.2.2.1]
        show r.1.session.events ++ [q.1] = _
        rw [hbev]
        show s2.session.events ++ d ++ [q.1] = _
        have : s2.session.events = s.session.events ++ [p.1] := hp.2.2.2.1
        rw [this]
        simp [List.append_assoc]
      · have hpid : p.1.id = s.counter + 1 := by rw [hp.2.2.2.2.1]
        have hqid : q.1.id = s4.counter + 1 := by rw [hc.2.2.2.2.1]
        have hs2c : s2.counter = s.counter + 1 := hp.1
        have hs4c : s4.counter = s.counter + 1 + emitsList body := by
          show r.1.counter = _
          rw [hbcount, hs2c]
        simp only [List.map_cons, List.map_append, List.map_singleton,
          List.map_nil]
        rw [hpid, hqid, hs4c, hbids, hs2c]
        have hemit : emitsOp (Op.span name tags body) = 2 + emitsList body := rfl
        rw [hemit, range'_two_plus]
  | record_input role content md =>
    exact ⟨rfl, rfl, rfl, [_], rfl, rfl⟩
  | record_output role content md =>
    exact ⟨rfl, rfl, rfl, [_], rfl, rfl⟩
  | record_llm_call model prompt response tokens dm md =>
    exact ⟨rfl, rfl, rfl, [_], rfl, rfl⟩
  | record_tool_call tool args result dm success err =>
    exact ⟨rfl, rfl, rfl, [_], rfl, rfl⟩
  | record_state_change key ov nv =>
    exact ⟨rfl, rfl, rfl, [_], rfl, rfl⟩
  | record_error err etype stk ctx =>
    exact ⟨rfl, rfl, rfl, [_], rfl, rfl⟩
  | record_log level message dd =>
    exact ⟨rfl, rfl, rfl, [_], rfl, rfl⟩
  | set_state key value =>
    exact ⟨rfl, rfl, rfl, [], (List.append_nil _).symm, rfl⟩
  | userRaise =>
    exact ⟨rfl, rfl, rfl, [], (List.append_nil _).symm, rfl⟩

/-- Shape of a call sequence: flag, stack, counter and the emitted ids,
compositionally. -/
theorem runOps_shape (ts : Nat → String) (dur : Nat → Rat) (l : List Op)
    (s : RecState) :
    (runOps ts dur l s).2 = raisesList l ∧
    (runOps ts dur l s).1.stack = s.stack ∧
    (runOps ts dur l s).1.counter = s.counter + emitsList l ∧
    ∃ d, (runOps ts dur l s).1.session.events = s.session.events ++ d ∧
      d.map (fun e => e.id) = List.range' (s.counter + 1) (emitsList l) := by
  cases l with
  | nil => exact ⟨rfl, rfl, rfl, [], (List.append_nil _).symm, rfl⟩
  | cons op rest =>
    have h1 := runOp_shape ts dur op s
    obtain ⟨h1flag, h1stack, h1count, d1, h1ev, h1ids⟩ := h1
    have hrun : runOps ts dur (op :: rest) s =
        (if (runOp ts dur op s).2 then ((runOp ts dur op s).1, true)
         else runOps ts dur rest (runOp ts dur op s).1) := rfl
    by_cases hr : raisesOp op
    · rw [hrun, h1flag, if_pos hr]
      refine ⟨?_, h1stack, ?_, d1, h1ev, ?_⟩
      · show true = raisesList (op :: rest)
        show true = (raisesOp op || raisesList rest)
        rw [hr]
        rfl
      · rw [h1count]
        show s.counter + emitsOp op = s.counter + emitsList (op :: rest)
        show s.counter + emitsOp op =
          s.counter + (if raisesOp op then emitsOp op else emitsOp op + emitsList rest)
        rw [if_pos hr]
      · rw [h1ids]
        show List.range' (s.counter + 1) (emitsOp op) =
          List.range' (s.counter + 1)
            (if raisesOp op then emitsOp op else emitsOp op + emitsList rest)
        rw [if_pos hr]
    · rw [hrun, h1flag, if_neg hr]
      have h2 := runOps_shape ts dur rest (runOp ts dur op s).1
      obtain ⟨h2flag, h2stack, h2count, d2, h2ev, h2ids⟩ := h2
      refine ⟨?_, ?_, ?_, d1 ++ d2, ?_, ?_⟩
      · rw [h2flag]
        show raisesList rest = (raisesOp op || raisesList rest)
        simp [hr]
      · rw [h2stack, h1stack]
      · rw [h2count, h1count]
        show s.counter + emitsOp op + emitsList rest =
          s.counter + (if raisesOp op then emitsOp op else emitsOp op + emitsList rest)
        rw [if_neg hr]
        omega
      · rw [h2ev, h1ev, List.append_assoc]
      · rw [List.map_append, h1ids, h2ids, h1count]
        show List.range' (s.counter + 1) (emitsOp op) ++
            List.range' (s.counter + emitsOp op + 1) (emitsList rest) =
          List.range' (s.counter + 1)
            (if raisesOp op then emitsOp op else emitsOp op + emitsList rest)
        rw [if_neg hr]
        have := List.range'_append_1 (s.counter + 1) (emitsOp op) (emitsList rest)
        rw [show s.counter + emitsOp op + 1 = s.counter + 1 + emitsOp op by omega]
        rw [this]
        congr 1
        omega

end

/-- C1: however a single recorder is driven (any mix of recording calls,
spans, state writes and raising bodies), the session's event ids are
exactly 1, 2, …, n in append order. -/
theorem event_ids_gapless (ts : Nat → String) (dur : Nat → Rat)
    (session_id : String) (metadata : Dict) (ops : List Op) :
    (runRec ts dur session_id metadata ops).session.events.map (fun e => e.id) =
      List.range' 1
        (runRec ts dur session_id metadata ops).session.events.length := by
  obtain ⟨-, -, -, d, hev, hids⟩ :=
    runOps_shape ts dur ops (initState ts session_id metadata)
  have hev' : (runRec ts dur session_id metadata ops).session.events = d := by
    show (runOps ts dur ops (initState ts session_id metadata)).1.session.events
      = d
    rw [hev]
    show ([] : List Event) ++ d = d
    exact List.nil_append d
  have hlen : d.length = emitsList ops := by
    have := congrArg List.length hids
    simpa using this
  rw [hev', hids, hlen]
  rfl

/-- A non-span call never touches the span stack and parents any event it
appends at the stack's top. -/
theorem runOp_simple (ts : Nat → String) (dur : Nat → Rat) (op : Op)
    (s : RecState) (h : op.isSimple = true) :
    (runOp ts dur op s).1.stack = s.stack ∧
    (runOp ts dur op s).1.counter = s.counter + emitsOp op ∧
    ∃ d, (runOp ts dur op s).1.session.events = s.session.events ++ d ∧
      d.map (fun e => e.id) = List.range' (s.counter + 1) (emitsOp op) ∧
      ∀ e ∈ d, e.parent_id = s.stack.head? := by
  cases op with
  | span name tags body => exact absurd h (by simp [Op.isSimple])
  | record_input role content md =>
    exact ⟨rfl, rfl, [_], rfl, rfl, by intro e he; rw [List.mem_singleton.1 he]⟩
  | record_output role content md =>
    exact ⟨rfl, rfl, [_], rfl, rfl, by intro e he; rw [List.mem_singleton.1 he]⟩
  | record_llm_call model prompt response tokens dm md =>
    exact ⟨rfl, rfl, [_], rfl, rfl, by intro e he; rw [List.mem_singleton.1 he]⟩
  | record_tool_call tool args result dm success err =>
    exact ⟨rfl, rfl, [_], rfl, rfl, by intro e he; rw [List.mem_singleton.1 he]⟩
  | record_state_change key ov nv =>
    exact ⟨rfl, rfl, [_], rfl, rfl, by intro e he; rw [List.mem_singleton.1 he]⟩
  | record_error err etype stk ctx =>
    exact ⟨rfl, rfl, [_], rfl, rfl, by intro e he; rw [List.mem_singleton.1 he]⟩
  | record_log level message dd =>
    exact ⟨rfl, rfl, [_], rfl, rfl, by intro e he; rw [List.mem_singleton.1 he]⟩
  | set_state key value =>
    exact ⟨rfl, rfl, [], (List.append_nil _).symm, rfl, by intro e he; cases he⟩
  | userRaise =>
    exact ⟨rfl, rfl, [], (List.append_nil _).symm, rfl, by intro e he; cases he⟩

/-- A sequence of non-span calls preserves the stack and parents every
event it appends at the stack's top, with consecutive fresh ids. -/
theorem runOps_simple (ts : Nat → String) (dur : Nat → Rat) :
    ∀ (l : List Op) (s : RecState), (∀ op ∈ l, op.isSimple = true) →
    (runOps ts dur l s).2 = raisesList l ∧
    (runOps ts dur l s).1.stack = s.stack ∧
    (runOps ts dur l s).1.counter = s.counter + emitsList l ∧
    ∃ d, (runOps ts dur l s).1.session.events = s.session.events ++ d ∧
      d.map (fun e => e.id) = List.range' (s.counter + 1) (emitsList l) ∧
      ∀ e ∈ d, e.parent_id = s.stack.head? := by
  intro l
  induction l with
  | nil =>
    intro s _
    exact ⟨rfl, rfl, rfl, [], (List.append_nil _).symm, rfl, by intro e he; cases he⟩
  | cons op rest ih =>
    intro s h
    have hop : op.isSimple = true := h op (List.mem_cons_self op rest)
    have h1 := runOp_simple ts dur op s hop
    have h1flag : (runOp ts dur op s).2 = raisesOp op := (runOp_shape ts dur op s).1
    obtain ⟨h1stack, h1count, d1, h1ev, h1ids, h1par⟩ := h1
    have hrun : runOps ts dur (op :: rest) s =
        (if (runOp ts dur op s).2 then ((runOp ts dur op s).1, true)
         else runOps ts dur rest (runOp ts dur op s).1) := rfl
    by_cases hr : raisesOp op
    · rw [hrun, h1flag, if_pos hr]
      refine ⟨?_, h1stack, ?_, d1, h1ev, ?_, h1par⟩
      · show true = (raisesOp op || raisesList rest)
        rw [hr]; rfl
      · rw [h1count]
        show s.counter + emitsOp op = s.counter +
          (if raisesOp op then emitsOp op else emitsOp op + emitsList rest)
        rw [if_pos hr]
      · rw [h1ids]
        show List.range' (s.counter + 1) (emitsOp op) = List.range' (s.counter + 1)
          (if raisesOp op then emitsOp op else emitsOp op + emitsList rest)
        rw [if_pos hr]
    · rw [hrun, h1flag, if_neg hr]
      have h2 := ih (runOp ts dur op s).1 fun o ho => h o (List.mem_cons_of_mem op ho)
      obtain ⟨h2flag, h2stack, h2count, d2, h2ev, h2ids, h2par⟩ := h2
      refine ⟨?_, ?_, ?_, d1 ++ d2, ?_, ?_, ?_⟩
      · rw [h2flag]
        show raisesList rest = (raisesOp op || raisesList rest)
        simp [hr]
      · rw [h2stack, h1stack]
      · rw [h2count, h1count]
        show s.counter + emitsOp op + emitsList rest = s.counter +
          (if raisesOp op then emitsOp op else emitsOp op + emitsList rest)
        rw [if_neg hr]; omega
      · rw [h2ev, h1ev, List.append_assoc]
      · rw [List.map_append, h1ids, h2ids, h1count]
        show List.range' (s.counter + 1) (emitsOp op) ++
            List.range' (s.counter + emitsOp op + 1) (emitsList rest) =
          List.range' (s.counter + 1)
            (if raisesOp op then emitsOp op else emitsOp op + emitsList rest)
        rw [if_neg hr]
        rw [show s.counter + emitsOp op + 1 = s.counter + 1 + emitsOp op by omega]
        rw [List.range'_append_1 (s.counter + 1) (emitsOp op) (emitsList rest)]
        congr 1
        omega
      · intro e he
        rcases List.mem_append.1 he with h' | h'
        · exact h1par e h'
        · rw [h2par e h', h1stack]

/-- `runOps` distributes over list append, short-circuiting on a raise. -/
theorem runOps_append (ts : Nat → String) (dur : Nat → Rat) :
    ∀ (l1 l2 : List Op) (s : RecState),
      runOps ts dur (l1 ++ l2) s =
        (if (runOps ts dur l1 s).2 then ((runOps ts dur l1 s).1, true)
         else runOps ts dur l2 (runOps ts dur l1 s).1) := by
  intro l1
  induction l1 with
  | nil =>
    intro l2 s
    show runOps ts dur l2 s = (if false = true then _ else runOps ts dur l2 s)
    rw [if_neg (by simp)]
  | cons op rest ih =>
    intro l2 s
    show (if (runOp ts dur op s).2 then ((runOp ts dur op s).1, true)
          else runOps ts dur (rest ++ l2) (runOp ts dur op s).1) = _
    cases hr : (runOp ts dur op s).2 with
    | true =>
      rw [if_pos rfl]
      have hl : runOps ts dur (op :: rest) s = ((runOp ts dur op s).1, true) := by
        show (if (runOp ts dur op s).2 then ((runOp ts dur op s).1, true)
              else runOps ts dur rest (runOp ts dur op s).1) = _
        rw [hr, if_pos rfl]
      rw [hl, if_pos rfl]
    | false =>
      rw [if_neg (by simp)]
      have hl : runOps ts dur (op :: rest) s =
          runOps ts dur rest (runOp ts dur op s).1 := by
        show (if (runOp ts dur op s).2 then ((runOp ts dur op s).1, true)
              else runOps ts dur rest (runOp ts dur op s).1) = _
        rw [hr, if_neg (by simp)]
      rw [ih l2 (runOp ts dur op s).1, hl]

/-- A one-element sequence is a single call. -/
theorem runOps_singleton (ts : Nat → String) (dur : Nat → Rat) (op : Op)
    (s : RecState) : runOps ts dur [op] s = runOp ts dur op s := by
  show (if (runOp ts dur op s).2 then ((runOp ts dur op s).1, true)
        else runOps ts dur [] (runOp ts dur op s).1) = _
  cases hr : (runOp ts dur op s).2 with
  | true =>
    rw [if_pos rfl]
    exact Prod.ext rfl hr.symm
  | false =>
    rw [if_neg (by simp)]
    exact Prod.ext rfl hr.symm

/-- A span over non-span calls: it brackets its body's events between a
`started` event (parented at the enclosing stack top) and a `completed`
event carrying the start id and a duration; every body event is parented
at the span's own start id; the stack is restored even when the body
raises, and the raise is re-thrown after the epilogue. -/
theorem runOp_span_simple (ts : Nat → String) (dur : Nat → Rat)
    (name : String) (tags : Option (List String)) (l : List Op) (s : RecState)
    (h : ∀ op ∈ l, op.isSimple = true) :
    ∃ eS d eC,
      (runOp ts dur (Op.span name tags l) s).1.session.events =
        s.session.events ++ eS :: (d ++ [eC]) ∧
      (runOp ts dur (Op.span name tags l) s).2 = raisesList l ∧
      (runOp ts dur (Op.span name tags l) s).1.stack = s.stack ∧
      (runOp ts dur (Op.span name tags l) s).1.counter =
        s.counter + (2 + emitsList l) ∧
      eS.id = s.counter + 1 ∧
      eS.parent_id = s.stack.head? ∧
      eS.type = .custom ∧
      eS.data = [("span", Value.vstr name), ("status", Value.vstr "started")] ∧
      (∀ e ∈ d, e.parent_id = some eS.id) ∧
      d.map (fun e => e.id) = List.range' (s.counter + 2) (emitsList l) ∧
      eC.id = s.counter + 2 + emitsList l ∧
      eC.parent_id = s.stack.head? ∧
      eC.type = .custom ∧
      eC.data = [("span", Value.vstr name), ("status", Value.vstr "completed"),
        ("span_start_id", Value.vint (eS.id : Int))] ∧
      eC.duration_ms.isSome = true := by
  have hp := createEvent_spec ts s .custom
    [("span", Value.vstr name), ("status", Value.vstr "started")] none tags
  set p := createEvent ts s .custom
    [("span", Value.vstr name), ("status", Value.vstr "started")] none tags
    with hpdef
  have hb := runOps_simple ts dur l { p.2 with stack := p.1.id :: p.2.stack } h
  set s2 := { p.2 with stack := p.1.id :: p.2.stack } with hs2def
  set r := runOps ts dur l s2 with hrdef
  obtain ⟨hbflag, hbstack, hbcount, d, hbev, hbids, hbpar⟩ := hb
  have hc := createEvent_spec ts { r.1 with stack := r.1.stack.tail } .custom
    [("span", Value.vstr name), ("status", Value.vstr "completed"),
     ("span_start_id", Value.vint (p.1.id : Int))] (some (dur p.1.id)) tags
  set s4 := { r.1 with stack := r.1.stack.tail } with hs4def
  set q := createEvent ts s4 .custom
    [("span", Value.vstr name), ("status", Value.vstr "completed"),
     ("span_start_id", Value.vint (p.1.id : Int))] (some (dur p.1.id)) tags
    with hqdef
  have hrun : runOp ts dur (Op.span name tags l) s = (q.2, r.2) := rfl
  have hp2stack : p.2.stack = s.stack := hp.2.1
  have hp2count : p.2.counter = s.counter + 1 := hp.1
  have hpid : p.1.id = s.counter + 1 := by rw [hp.2.2.2.2.1]
  have hs2stack : s2.stack = p.1.id :: s.stack := by
    show p.1.id :: p.2.stack = _
    rw [hp2stack]
  refine ⟨p.1, d, q.1, ?_, ?_, ?_, ?_, hpid, ?_, ?_, ?_, ?_, ?_, ?_, ?_, ?_, ?_, ?_⟩
  · rw [hrun]
    rw [hc.2.2.2.1]
    show r.1.session.events ++ [q.1] = _
    rw [hbev]
    show s2.session.events ++ d ++ [q.1] = _
    have : s2.session.events = s.session.events ++ [p.1] := hp.2.2.2.1
    rw [this]
    simp [List.append_assoc]
  · rw [hrun]
    exact hbflag
  · rw [hrun]
    rw [hc.2.1]
    show r.1.stack.tail = s.stack
    rw [hbstack, hs2stack]
    rfl
  · rw [hrun]
    rw [hc.1]
    show s4.counter + 1 = _
    show r.1.counter + 1 = _
    rw [hbcount]
    show s2.counter + emitsList l + 1 = _
    have : s2.counter = s.counter + 1 := hp2count
    rw [this]
    omega
  · rw [hp.2.2.2.2.1]
  · rw [hp.2.2.2.2.1]
  · rw [hp.2.2.2.2.1]
  · intro e he
    rw [hbpar e he, hs2stack]
    rfl
  · rw [hbids]
    have : s2.counter = s.counter + 1 := hp2count
    rw [this]
  · rw [hc.2.2.2.2.1]
    show s4.counter + 1 = _
    show r.1.counter + 1 = _
    rw [hbcount]
    have : s2.counter = s.counter + 1 := hp2count
    rw [this]
    omega
  · rw [hc.2.2.2.2.1]
    show s4.stack.head? = _
    show r.1.stack.tail.head? = _
    rw [hbstack, hs2stack]
    rfl
  · rw [hc.2.2.2.2.1]
  · rw [hc.2.2.2.2.1]
  · rw [hc.2.2.2.2.1]
    rfl

/-- C5: with spans "A" then "B" open, every event recorded inside B
(B's own start included, which is parented at A's start) carries B's start
event id as `parent_id`; after B closes, events carry A's start id; after
A closes, events carry no parent.  The stack is popped on exit even when
the enclosed block raises (both closing events still appear, the stack
ends empty, and only the calls after the raise are skipped), and each
closing `custom` event carries `{span, status: completed, span_start_id}`
plus a `duration_ms`. -/
theorem span_nesting (ts : Nat → String) (dur : Nat → Rat)
    (sid : String) (meta : Dict) (nameA nameB : String)
    (tagsA tagsB : Option (List String)) (pre xs ys zs : List Op)
    (hpre : ∀ op ∈ pre, op.isSimple = true)
    (hprer : raisesList pre = false)
    (hxs : ∀ op ∈ xs, op.isSimple = true)
    (hys : ∀ op ∈ ys, op.isSimple = true)
    (hzs : ∀ op ∈ zs, op.isSimple = true) :
    ∃ (dpre dxs dys dzs : List Event) (eA eB cB cA : Event),
      (runRec ts dur sid meta
        (pre ++ ([Op.span nameA tagsA ([Op.span nameB tagsB xs] ++ ys)] ++ zs))
        ).session.events
        = dpre ++ eA :: eB :: (dxs ++ cB :: (dys ++ cA :: dzs)) ∧
      eA.id = emitsList pre + 1 ∧ eA.parent_id = none ∧
      eB.id = emitsList pre + 2 ∧ eB.parent_id = some eA.id ∧
      (∀ e ∈ dxs, e.parent_id = some eB.id) ∧
      cB.type = .custom ∧
      cB.data = [("span", Value.vstr nameB), ("status", Value.vstr "completed"),
        ("span_start_id", Value.vint (eB.id : Int))] ∧
      cB.duration_ms.isSome = true ∧
      (∀ e ∈ dys, e.parent_id = some eA.id) ∧
      cA.type = .custom ∧
      cA.data = [("span", Value.vstr nameA), ("status", Value.vstr "completed"),
        ("span_start_id", Value.vint (eA.id : Int))] ∧
      cA.duration_ms.isSome = true ∧ cA.parent_id = none ∧
      (∀ e ∈ dzs, e.parent_id = none) ∧
      (runRec ts dur sid meta
        (pre ++ ([Op.span nameA tagsA ([Op.span nameB tagsB xs] ++ ys)] ++ zs))
        ).stack = [] ∧
      (raisesList xs = true → dys = []) ∧
      ((raisesList xs || raisesList ys) = true → dzs = []) := by
  obtain ⟨h0flag, h0stack, h0count, dpre, h0ev, h0ids, h0par⟩ :=
    runOps_simple ts dur pre (initState ts sid meta) hpre
  set s0 := (runOps ts dur pre (initState ts sid meta)).1 with hs0def
  have hs0stack : s0.stack = [] := by rw [h0stack]; rfl
  have hs0count : s0.counter = emitsList pre := by
    rw [h0count]
    show 0 + emitsList pre = emitsList pre
    omega
  have hs0ev : s0.session.events = dpre := by
    rw [h0ev]
    exact List.nil_append dpre
  have hpA := createEvent_spec ts s0 .custom
    [("span", Value.vstr nameA), ("status", Value.vstr "started")] none tagsA
  set pA := createEvent ts s0 .custom
    [("span", Value.vstr nameA), ("status", Value.vstr "started")] none tagsA
    with hpAdef
  set s2A := { pA.2 with stack := pA.1.id :: pA.2.stack } with hs2Adef
  have hs2Astack : s2A.stack = [pA.1.id] := by
    show pA.1.id :: pA.2.stack = _
    rw [hpA.2.1, hs0stack]
  have hs2Acount : s2A.counter = emitsList pre + 1 := by
    show pA.2.counter = _
    rw [hpA.1, hs0count]
  have hs2Aev : s2A.session.events = dpre ++ [pA.1] := by
    show pA.2.session.events = _
    rw [hpA.2.2.2.1, hs0ev]
  have heAid : pA.1.id = emitsList pre + 1 := by
    rw [hpA.2.2.2.2.1]
    show s0.counter + 1 = _
    rw [hs0count]
  have heApar : pA.1.parent_id = none := by
    rw [hpA.2.2.2.2.1]
    show s0.stack.head? = none
    rw [hs0stack]
    rfl
  obtain ⟨eB, dxs, cB, hBev, hBflag, hBstack, hBcount, hBid, hBpar, hBty,
    hBdata, hBdpar, hBdids, hCBid, hCBpar, hCBty, hCBdata, hCBdur⟩ :=
    runOp_span_simple ts dur nameB tagsB xs s2A hxs
  have heBpar : eB.parent_id = some pA.1.id := by
    rw [hBpar, hs2Astack]
    rfl
  have hsBstack : (runOp ts dur (Op.span nameB tagsB xs) s2A).1.stack
      = [pA.1.id] := by
    rw [hBstack, hs2Astack]
  have hbodyA := runOps_append ts dur [Op.span nameB tagsB xs] ys s2A
  rw [runOps_singleton] at hbodyA
  obtain ⟨dys, hrAev, hrAstack, hrAflag, hdyspar, hdysskip⟩ :
      ∃ dys,
        (runOps ts dur ([Op.span nameB tagsB xs] ++ ys) s2A).1.session.events =
          (runOp ts dur (Op.span nameB tagsB xs) s2A).1.session.events ++ dys ∧
        (runOps ts dur ([Op.span nameB tagsB xs] ++ ys) s2A).1.stack
          = [pA.1.id] ∧
        (runOps ts dur ([Op.span nameB tagsB xs] ++ ys) s2A).2 =
          (raisesList xs || raisesList ys) ∧
        (∀ e ∈ dys, e.parent_id = some pA.1.id) ∧
        (raisesList xs = true → dys = []) := by
    rw [hbodyA, hBflag]
    cases hrx : raisesList xs with
    | true =>
      rw [if_pos rfl]
      exact ⟨[], (List.append_nil _).symm, hsBstack, rfl,
        (by intro e he; cases he), fun _ => rfl⟩
    | false =>
      rw [if_neg (by simp)]
      obtain ⟨hyflag, hystack, hycount, dys, hyev, hyids, hypar⟩ :=
        runOps_simple ts dur ys (runOp ts dur (Op.span nameB tagsB xs) s2A).1 hys
      refine ⟨dys, hyev, ?_, ?_, ?_, ?_⟩
      · rw [hystack, hsBstack]
      · rw [hyflag]
        rfl
      · intro e he
        rw [hypar e he, hsBstack]
        rfl
      · intro hcontra
        exact absurd hcontra (by simp)
  set s4A := { (runOps ts dur ([Op.span nameB tagsB xs] ++ ys) s2A).1 with
    stack := (runOps ts dur ([Op.span nameB tagsB xs] ++ ys) s2A).1.stack.tail }
    with hs4Adef
  have hs4Astack : s4A.stack = [] := by
    show (runOps ts dur ([Op.span nameB tagsB xs] ++ ys) s2A).1.stack.tail = []
    rw [hrAstack]
    rfl
  have hqA := createEvent_spec ts s4A .custom
    [("span", Value.vstr nameA), ("status", Value.vstr "completed"),
     ("span_start_id", Value.vint (pA.1.id : Int))] (some (dur pA.1.id)) tagsA
  set qA := createEvent ts s4A .custom
    [("span", Value.vstr nameA), ("status", Value.vstr "completed"),
     ("span_start_id", Value.vint (pA.1.id : Int))] (some (dur pA.1.id)) tagsA
    with hqAdef
  have hArun : runOp ts dur
      (Op.span nameA tagsA ([Op.span nameB tagsB xs] ++ ys)) s0 =
      (qA.2, (runOps ts dur ([Op.span nameB tagsB xs] ++ ys) s2A).2) := rfl
  have hqAstack : qA.2.stack = [] := by rw [hqA.2.1, hs4Astack]
  have hqAev : qA.2.session.events =
      dpre ++ [pA.1] ++ (eB :: (dxs ++ [cB])) ++ dys ++ [qA.1] := by
    rw [hqA.2.2.2.1]
    show (runOps ts dur ([Op.span nameB tagsB xs] ++ ys) s2A).1.session.events
        ++ [qA.1] = _
    rw [hrAev, hBev, hs2Aev]
  have hcApar : qA.1.parent_id = none := by
    rw [hqA.2.2.2.2.1]
    show s4A.stack.head? = none
    rw [hs4Astack]
    rfl
  have htop1 := runOps_append ts dur pre
    ([Op.span nameA tagsA ([Op.span nameB tagsB xs] ++ ys)] ++ zs)
    (initState ts sid meta)
  rw [h0flag, hprer, if_neg (by simp)] at htop1
  have htop2 := runOps_append ts dur
    [Op.span nameA tagsA ([Op.span nameB tagsB xs] ++ ys)] zs s0
  rw [runOps_singleton] at htop2
  have hAfst : (runOp ts dur (Op.span nameA tagsA
      ([Op.span nameB tagsB xs] ++ ys)) s0).1 = qA.2 := by rw [hArun]
  have hAsnd : (runOp ts dur (Op.span nameA tagsA
      ([Op.span nameB tagsB xs] ++ ys)) s0).2 =
      (runOps ts dur ([Op.span nameB tagsB xs] ++ ys) s2A).2 := by rw [hArun]
  rw [hAfst, hAsnd, hrAflag] at htop2
  obtain ⟨dzs, hfinev, hfinstack, hdzspar, hdzsskip⟩ :
      ∃ dzs,
        (runOps ts dur (pre ++ ([Op.span nameA tagsA ([Op.span nameB tagsB xs]
          ++ ys)] ++ zs)) (initState ts sid meta)).1.session.events =
          qA.2.session.events ++ dzs ∧
        (runOps ts dur (pre ++ ([Op.span nameA tagsA ([Op.span nameB tagsB xs]
          ++ ys)] ++ zs)) (initState ts sid meta)).1.stack = [] ∧
        (∀ e ∈ dzs, e.parent_id = none) ∧
        ((raisesList xs || raisesList ys) = true → dzs = []) := by
    rw [htop1, ← hs0def, htop2]
    cases hrb : (raisesList xs || raisesList ys) with
    | true =>
      rw [if_pos rfl]
      exact ⟨[], (List.append_nil _).symm, hqAstack,
        (by intro e he; cases he), fun _ => rfl⟩
    | false =>
      rw [if_neg (by simp)]
      obtain ⟨hzflag, hzstack, hzcount, dzs, hzev, hzids, hzpar⟩ :=
        runOps_simple ts dur zs qA.2 hzs
      refine ⟨dzs, hzev, ?_, ?_, ?_⟩
      · rw [hzstack, hqAstack]
      · intro e he
        rw [hzpar e he, hqAstack]
        rfl
      · intro hcontra
        exact absurd hcontra (by simp)
  refine ⟨dpre, dxs, dys, dzs, pA.1, eB, cB, qA.1, ?_, heAid, heApar, ?_,
    heBpar, hBdpar, hCBty, hCBdata, hCBdur, hdyspar, ?_, ?_, ?_, hcApar,
    hdzspar, ?_, hdysskip, hdzsskip⟩
  · show (runOps ts dur (pre ++ ([Op.span nameA tagsA ([Op.span nameB tagsB xs]
      ++ ys)] ++ zs)) (initState ts sid meta)).1.session.events = _
    rw [hfinev, hqAev]
    simp [List.append_assoc]
  · rw [hBid, hs2Acount]
  · rw [hqA.2.2.2.2.1]
  · rw [hqA.2.2.2.2.1]
  · rw [hqA.2.2.2.2.1]
    rfl
  · exact hfinstack

/-- Witness for C5 on a concrete nested-span program: one log inside B,
one log in A after B, one input after A; the stack ends empty. -/
theorem span_nesting_witness :
    (runRec (fun _ => "t") (fun _ => 0) "s" []
      ([] ++ ([Op.span "A" none
        ([Op.span "B" none [Op.record_log "info" "x" none]] ++
         [Op.record_log "info" "y" none])] ++
        [Op.record_input "user" "z" none]))).stack = [] := by
  obtain ⟨dpre, dxs, dys, dzs, eA, eB, cB, cA, hev, hA1, hA2, hB1, hB2, hxs1,
    hcb1, hcb2, hcb3, hys1, hca1, hca2, hca3, hca4, hzs1, hstack, hskip1,
    hskip2⟩ :=
    span_nesting (fun _ => "t") (fun _ => 0) "s" [] "A" "B" none none
      [] [Op.record_log "info" "x" none] [Op.record_log "info" "y" none]
      [Op.record_input "user" "z" none]
      (by decide) (by decide) (by decide) (by decide) (by decide)
  exact hstack

/-- A found key/value pair is in the association list. -/
theorem alookup_mem {κ α : Type} [DecidableEq κ] :
    ∀ (l : List (κ × α)) (k : κ) (v : α), alookup l k = some v → (k, v) ∈ l := by
  intro l
  induction l with
  | nil => intro k v h; exact absurd h (by simp [alookup])
  | cons p rest ih =>
    intro k v h
    rw [show alookup (p :: rest) k =
      (if p.1 = k then some p.2 else alookup rest k) from by
        rw [show (p :: rest) = ((p.1, p.2) :: rest) from rfl]
        rfl] at h
    by_cases hk : p.1 = k
    · rw [if_pos hk] at h
      rcases Option.some.inj h with rfl
      subst hk
      exact List.mem_cons_self p rest
    · rw [if_neg hk] at h
      exact List.mem_cons_of_mem p (ih k v h)

/-- Folding state changes distributes over list append. -/
theorem applyChanges_append :
    ∀ (l1 l2 : List Event) (st : StateMap),
      applyChanges (l1 ++ l2) st =
        (match applyChanges l1 st with
         | none => none
         | some st' => applyChanges l2 st') := by
  intro l1
  induction l1 with
  | nil => intro l2 st; rfl
  | cons e rest ih =>
    intro l2 st
    simp only [List.cons_append, applyChanges]
    cases hA : applyChange st e with
    | none => rfl
    | some st' => exact ih l2 st'

/-- When the target id occurs in the first block, the reconstruction loop
never reaches the second block. -/
theorem buildStateGo_append_stop :
    ∀ (l1 l2 : List Event) (t : Nat) (st : StateMap),
      (∃ e ∈ l1, e.id = t) →
      buildStateGo (l1 ++ l2) t st = buildStateGo l1 t st := by
  intro l1
  induction l1 with
  | nil =>
    intro l2 t st h
    obtain ⟨e, he, _⟩ := h
    exact absurd he (List.not_mem_nil e)
  | cons e rest ih =>
    intro l2 t st h
    simp only [List.cons_append, buildStateGo]
    cases hA : applyChange st e with
    | none => rfl
    | some st' =>
      show (if e.id = t then some st' else buildStateGo (rest ++ l2) t st') =
        (if e.id = t then some st' else buildStateGo rest t st')
      by_cases hid : e.id = t
      · simp [hid]
      · simp only [hid, if_false]
        apply ih
        obtain ⟨e', he', hide⟩ := h
        rcases List.mem_cons.1 he' with rfl | hmem
        · exact absurd hide hid
        · exact ⟨e', hmem, hide⟩

/-- When the target id does not occur in the first block, the
reconstruction loop folds the whole first block and continues. -/
theorem buildStateGo_append_pass :
    ∀ (l1 l2 : List Event) (t : Nat) (st : StateMap),
      (∀ e ∈ l1, e.id ≠ t) →
      buildStateGo (l1 ++ l2) t st =
        (match applyChanges l1 st with
         | none => none
         | some st' => buildStateGo l2 t st') := by
  intro l1
  induction l1 with
  | nil => intro l2 t st _; rfl
  | cons e rest ih =>
    intro l2 t st h
    have hid : e.id ≠ t := h e (List.mem_cons_self e rest)
    simp only [List.cons_append, buildStateGo, applyChanges]
    cases hA : applyChange st e with
    | none => rfl
    | some st' =>
      show (if e.id = t then some st' else buildStateGo (rest ++ l2) t st') = _
      rw [if_neg hid]
      exact ih l2 t st' fun e' he' => h e' (List.mem_cons_of_mem e he')

/-- The recorder invariant behind C4: the counter counts the events, ids
are 1..n, the live state equals the fold of all recorded `state_change`
events, and every snapshot equals the reconstruction at its own id.  It
holds as long as `set_state` is not used. -/
def RecInv (s : RecState) : Prop :=
  s.counter = s.session.events.length ∧
  s.session.events.map (fun e => e.id) = List.range' 1 s.counter ∧
  applyChanges s.session.events [] = some s.curState ∧
  ∀ p ∈ s.session.state_snapshots,
    1 ≤ p.1 ∧ p.1 ≤ s.counter ∧
    buildStateGo s.session.events p.1 [] = some p.2

/-- `_create_event` preserves the recorder invariant, provided the event
being appended maps the pre-event fold to the current live state (true
for every recording call: non-`state_change` events leave the fold alone,
and `record_state_change` applies exactly the write it just made). -/
theorem createEvent_inv (ts : Nat → String) (s : RecState) (ty : EventType)
    (data : Dict) (dms : Option Rat) (tags : Option (List String))
    (st0 : StateMap)
    (hcount : s.counter = s.session.events.length)
    (hids : s.session.events.map (fun e => e.id) = List.range' 1 s.counter)
    (hfold : applyChanges s.session.events [] = some st0)
    (happly : applyChange st0 (createEvent ts s ty data dms tags).1 =
      some s.curState)
    (hsnaps : ∀ p ∈ s.session.state_snapshots,
      1 ≤ p.1 ∧ p.1 ≤ s.counter ∧
      buildStateGo s.session.events p.1 [] = some p.2) :
    RecInv (createEvent ts s ty data dms tags).2 := by
  have hspec := createEvent_spec ts s ty data dms tags
  have hidlt : ∀ e ∈ s.session.events, e.id ≤ s.counter := by
    intro e he
    have : e.id ∈ s.session.events.map (fun e => e.id) :=
      List.mem_map.2 ⟨e, he, rfl⟩
    rw [hids] at this
    have := List.mem_range'.1 this
    obtain ⟨i, hi, heq⟩ := this
    omega
  have hmemid : ∀ k, 1 ≤ k → k ≤ s.counter →
      ∃ e ∈ s.session.events, e.id = k := by
    intro k h1 h2
    have : k ∈ List.range' 1 s.counter := by
      rw [List.mem_range']
      exact ⟨k - 1, by omega, by omega⟩
    rw [← hids] at this
    obtain ⟨e, he, heq⟩ := List.mem_map.1 this
    exact ⟨e, he, heq⟩
  have heid : (createEvent ts s ty data dms tags).1.id = s.counter + 1 := by
    rw [hspec.2.2.2.2.1]
  have hold : ∀ p ∈ s.session.state_snapshots,
      1 ≤ p.1 ∧ p.1 ≤ s.counter + 1 ∧
      buildStateGo (createEvent ts s ty data dms tags).2.session.events p.1 []
        = some p.2 := by
    intro p hp
    obtain ⟨hp1, hp2, hp3⟩ := hsnaps p hp
    refine ⟨hp1, by omega, ?_⟩
    rw [hspec.2.2.2.1]
    rw [buildStateGo_append_stop s.session.events _ p.1 [] (hmemid p.1 hp1 hp2)]
    exact hp3
  have hnew : buildStateGo
      (createEvent ts s ty data dms tags).2.session.events (s.counter + 1) []
      = some s.curState := by
    rw [hspec.2.2.2.1]
    rw [buildStateGo_append_pass s.session.events _ (s.counter + 1) []
      (fun e he => by have := hidlt e he; omega)]
    rw [hfold]
    show (match applyChange st0 (createEvent ts s ty data dms tags).1 with
          | none => none
          | some st' =>
            if (createEvent ts s ty data dms tags).1.id = s.counter + 1
            then some st'
            else buildStateGo [] (s.counter + 1) st') = _
    rw [happly, heid]
    simp
  refine ⟨?_, ?_, ?_, ?_⟩
  · rw [hspec.1, hspec.2.2.2.1, hcount, List.length_append]
    rfl
  · rw [hspec.2.2.2.1, hspec.1, List.map_append, hids]
    simp only [List.map_cons, List.map_nil]
    rw [heid]
    show List.range' 1 s.counter ++ [s.counter + 1] = List.range' 1 (s.counter + 1)
    rw [List.range'_1_concat 1 s.counter]
    congr 2
    omega
  · rw [hspec.2.2.2.1, hspec.2.2.1]
    rw [applyChanges_append s.session.events _ [], hfold]
    show (match applyChange st0 (createEvent ts s ty data dms tags).1 with
          | none => none
          | some st' => applyChanges [] st') = _
    rw [happly]
    rfl
  · rw [hspec.2.2.2.2.2, hspec.1]
    by_cases hcs : s.curState.isEmpty
    · rw [if_pos hcs]
      exact hold
    · rw [if_neg hcs]
      intro p hp
      rcases List.mem_append.1 hp with hmem | hmem
      · exact hold p hmem
      · rcases List.mem_singleton.1 hmem with rfl
        exact ⟨by omega, by omega, hnew⟩

mutual

/-- Every recording call other than `set_state` preserves the recorder
invariant. -/
theorem runOp_inv (ts : Nat → String) (dur : Nat → Rat) (op : Op)
    (s : RecState) (hns : op.noSet = true) (hinv : RecInv s) :
    RecInv (runOp ts dur op s).1 := by
  cases op with
  | record_input role content md =>
    exact createEvent_inv ts s .input (ioData role content md) none none
      s.curState hinv.1 hinv.2.1 hinv.2.2.1 rfl hinv.2.2.2
  | record_output role content md =>
    exact createEvent_inv ts s .output (ioData role content md) none none
      s.curState hinv.1 hinv.2.1 hinv.2.2.1 rfl hinv.2.2.2
  | record_llm_call model prompt response tokens dm md =>
    exact createEvent_inv ts s .llm_call (llmData model prompt response tokens md)
      dm none s.curState hinv.1 hinv.2.1 hinv.2.2.1 rfl hinv.2.2.2
  | record_tool_call tool args result dm success err =>
    exact createEvent_inv ts s .tool_call (toolData tool args result success err)
      dm none s.curState hinv.1 hinv.2.1 hinv.2.2.1 rfl hinv.2.2.2
  | record_state_change key ov nv =>
    exact createEvent_inv ts
      { s with curState := aset s.curState (Value.vstr key) nv }
      .state_change
      [("key", Value.vstr key), ("old_value", ov), ("new_value", nv)]
      none none s.curState hinv.1 hinv.2.1 hinv.2.2.1 rfl hinv.2.2.2
  | record_error err etype stk ctx =>
    exact createEvent_inv ts s .error (errData err etype stk ctx) none
      (some ["error"]) s.curState hinv.1 hinv.2.1 hinv.2.2.1 rfl hinv.2.2.2
  | record_log level message dd =>
    exact createEvent_inv ts s .log (logData level message dd) none none
      s.curState hinv.1 hinv.2.1 hinv.2.2.1 rfl hinv.2.2.2
  | set_state key value =>
    exact absurd hns (by simp [Op.noSet])
  | userRaise => exact hinv
  | span name tags body =>
    have hbody : noSetList body = true := by simpa [Op.noSet] using hns
    have h1 : RecInv (createEvent ts s .custom
        [("span", Value.vstr name), ("status", Value.vstr "started")]
        none tags).2 :=
      createEvent_inv ts s .custom _ none tags s.curState hinv.1 hinv.2.1
        hinv.2.2.1 rfl hinv.2.2.2
    have h3 := runOps_inv ts dur body
      { (createEvent ts s .custom
          [("span", Value.vstr name), ("status", Value.vstr "started")]
          none tags).2 with
        stack := (createEvent ts s .custom
          [("span", Value.vstr name), ("status", Value.vstr "started")]
          none tags).1.id ::
          (createEvent ts s .custom
            [("span", Value.vstr name), ("status", Value.vstr "started")]
            none tags).2.stack }
      hbody h1
    exact createEvent_inv ts _ .custom _ _ tags _ h3.1 h3.2.1 h3.2.2.1 rfl
      h3.2.2.2

/-- A sequence of `set_state`-free recording calls preserves the recorder
invariant, even when an exception truncates it. -/
theorem runOps_inv (ts : Nat → String) (dur : Nat → Rat) (l : List Op)
    (s : RecState) (hns : noSetList l = true) (hinv : RecInv s) :
    RecInv (runOps ts dur l s).1 := by
  cases l with
  | nil => exact hinv
  | cons op rest =>
    have hns' : op.noSet = true ∧ noSetList rest = true := by
      simpa [noSetList, Bool.and_eq_true] using hns
    have h1 := runOp_inv ts dur op s hns'.1 hinv
    show RecInv (if (runOp ts dur op s).2 then ((runOp ts dur op s).1, true)
      else runOps ts dur rest (runOp ts dur op s).1).1
    cases hr : (runOp ts dur op s).2 with
    | true =>
      rw [if_pos rfl]
      exact h1
    | false =>
      rw [if_neg (by simp)]
      exact runOps_inv ts dur rest (runOp ts dur op s).1 hns'.2 h1

end

/-- Counterexample for C4: `set_state` mutates the live state without
recording a `state_change` event, so the next event's snapshot disagrees
with the replay of the event history (which sees no state change at
all). -/
theorem snapshot_set_state_mismatch :
    alookup (runRec (fun _ => "t") (fun _ => 0) "s" []
      [Op.set_state "x" (Value.vint 1), Op.record_log "info" "m" none]
      ).session.state_snapshots 1 = some [(Value.vstr "x", Value.vint 1)] ∧
    replayTo (runRec (fun _ => "t") (fun _ => 0) "s" []
      [Op.set_state "x" (Value.vint 1), Op.record_log "info" "m" none]
      ).session.events 1 = some [] ∧
    ([(Value.vstr "x", Value.vint 1)] : StateMap) ≠ ([] : StateMap) :=
  ⟨by decide, by decide, by decide⟩

/-- C4 as amended: for sessions produced without `set_state`, every
stored snapshot equals the replay of the full history up to and including
its event id (folding each `state_change` event's `{key: new_value}`). -/
theorem snapshot_matches_replay (ts : Nat → String) (dur : Nat → Rat)
    (sid : String) (meta : Dict) (ops : List Op)
    (hns : noSetList ops = true) (eid : Nat) (snap : StateMap)
    (hsnap : alookup
      (runRec ts dur sid meta ops).session.state_snapshots eid = some snap) :
    replayTo (runRec ts dur sid meta ops).session.events eid = some snap := by
  have hinv : RecInv (runRec ts dur sid meta ops) :=
    runOps_inv ts dur ops (initState ts sid meta) hns
      ⟨rfl, rfl, rfl, by intro p hp; cases hp⟩
  have hmem := alookup_mem _ eid snap hsnap
  have hres := hinv.2.2.2 (eid, snap) hmem
  rw [replayTo, ← buildStateGo_eq_takeThrough]
  exact hres.2.2

/-- Witness for C4's amended statement: a `record_state_change` followed
by a log; the snapshot at id 1 equals the replay to id 1. -/
theorem snapshot_matches_replay_witness :
    replayTo (runRec (fun _ => "t") (fun _ => 0) "s" []
      [Op.record_state_change "x" Value.vnull (Value.vint 1),
       Op.record_log "info" "m" none]).session.events 1 =
      some [(Value.vstr "x", Value.vint 1)] :=
  snapshot_matches_replay (fun _ => "t") (fun _ => 0) "s" []
    [Op.record_state_change "x" Value.vnull (Value.vint 1),
     Op.record_log "info" "m" none]
    (by decide) 1 [(Value.vstr "x", Value.vint 1)] (by decide)

end ARD
